import Mathlib

/-!
Shallow embedding of the VK-Service upload/token/quota/sweep core
(src/adapters/controllers/file_controller.rs, src/adapters/repositories/*,
src/application/*, src/domain/models/*).

External collaborators (Redis token store, Postgres metadata and user
stores, the remote storage provider) are modelled as explicit state inside
a `World` record together with success oracles for each fallible external
call.  Every repository / controller function is translated to a pure
Lean function `World → result × World × List Event`; the `Event` trace
records each external call in program order, so properties such as
"the provider is never invoked" are statements about the trace.
`DateTime<Utc>` is modelled as a `Nat` timestamp, `u64` as `Nat`
(all quota / size arithmetic in the source is far below `u64` overflow;
values written to the database are capped at `i64::MAX` by `sanitize`,
which is modelled faithfully), and `Vec<u8>` as `List Nat`.
-/

namespace VK

/-- Application-level error enum (src/application/error.rs). -/
inductive ApplicationError where
  | notFound
  | internalError (msg : String)
  | databaseError (msg : String)
  | badRequest (msg : String)
  | unauthorized
  | payloadTooLarge
  | insufficientStorage
  | invalidToken
deriving DecidableEq, Repr

/-- Decidable equality for Except results, used to evaluate the embedded
operations on concrete inputs. -/
instance {ε α : Type} [DecidableEq ε] [DecidableEq α] : DecidableEq (Except ε α) :=
  fun a b =>
    match a, b with
    | .ok x, .ok y => if h : x = y then .isTrue (by rw [h]) else .isFalse (by simp [h])
    | .error x, .error y => if h : x = y then .isTrue (by rw [h]) else .isFalse (by simp [h])
    | .ok _, .error _ => .isFalse (by simp)
    | .error _, .ok _ => .isFalse (by simp)

/-- Domain user record (src/domain/models/user.rs); `Uuid` is modelled as the
hyphenated string it parses from. -/
structure User where
  uid : String
  file_count : Nat
  total_space : Nat
  used_space : Nat
deriving DecidableEq, Repr

/-- Domain metadata record (src/domain/models/metadata.rs). -/
structure Metadata where
  file_id : String
  mime_type : String
  size : Nat
  user_id : Option String
  description : Option String
  file_name : String
  server_id : String
  uploaded_at : Nat
  download_count : Nat
  last_access : Nat
  delete_at : Option Nat
deriving DecidableEq, Repr

/-- Partial-update DTO for metadata (src/application/dto/metadata_dto.rs);
`Default` gives an empty `file_id` and `None` everywhere else. -/
structure MetadataDTO where
  file_id : String := ""
  mime_type : Option String := none
  size : Option Nat := none
  user_id : Option String := none
  description : Option String := none
  file_name : Option String := none
  server_id : Option String := none
  uploaded_at : Option Nat := none
  download_count : Option Nat := none
  last_access : Option Nat := none
  delete_at : Option Nat := none
deriving DecidableEq, Repr

/-- Partial-update DTO for users (src/application/dto/user_dto.rs). -/
structure UserDTO where
  uid : String
  file_count : Option Nat := none
  total_space : Option Nat := none
  used_space : Option Nat := none
deriving DecidableEq, Repr

/-- UserDTO::for_query — only the uid is set. -/
def UserDTO.for_query (uid : String) : UserDTO := { uid := uid }

/-- UserDTO::for_update — identical to for_query in the source. -/
def UserDTO.for_update (uid : String) : UserDTO := { uid := uid }

/-- Largest value storable in a Postgres BIGINT column (i64::MAX). -/
def i64Max : Nat := 9223372036854775807

/-- UserDTO::sanitize (src/adapters/dto/user_dto.rs): caps every present
numeric field at i64::MAX. -/
def UserDTO.sanitize (u : UserDTO) : UserDTO :=
  { u with
    file_count := u.file_count.map (fun n => min n i64Max)
    total_space := u.total_space.map (fun n => min n i64Max)
    used_space := u.used_space.map (fun n => min n i64Max) }

/-- MetadataDTO::sanitize (src/adapters/dto/metadata_dto.rs): caps size and
download_count at i64::MAX. -/
def MetadataDTO.sanitize (m : MetadataDTO) : MetadataDTO :=
  { m with
    size := m.size.map (fun n => min n i64Max)
    download_count := m.download_count.map (fun n => min n i64Max) }

/-- From<MetadataDTO> for Metadata (src/application/dto/metadata_dto.rs):
missing fields default; missing timestamps default to `Utc::now()`,
modelled by the extra `now` argument. -/
def MetadataDTO.toMetadata (dto : MetadataDTO) (now : Nat) : Metadata :=
  { file_id := dto.file_id
    mime_type := dto.mime_type.getD ""
    size := dto.size.getD 0
    user_id := dto.user_id
    description := dto.description
    file_name := dto.file_name.getD ""
    server_id := dto.server_id.getD ""
    uploaded_at := dto.uploaded_at.getD now
    download_count := dto.download_count.getD 0
    last_access := dto.last_access.getD now
    delete_at := dto.delete_at }

/-- Global policy configuration (src/domain/config/global.rs). -/
structure GlobalConfig where
  mime_types : List String
  max_size : Nat
  chunk_size : Nat
  temp_file_life : Nat
  default_quota : Nat
deriving DecidableEq, Repr

/-- One external call, recorded in program order. -/
inductive Event where
  | tokenSetEx (key value : String) (ttl : Nat)
  | tokenGetDel (key : String)
  | userGet (uid : String)
  | userUpdate (uid : String)
  | metaCreate (file_id : String)
  | metaGet (file_id : String)
  | metaUpdate (file_id : String)
  | metaDelete (file_id : String)
  | metaIncDownload (file_id : String)
  | metaGetExpired
  | providerUpload (size : Nat)
  | providerDownload (file_id : String)
  | providerDelete (file_id : String)
deriving DecidableEq, Repr

/-- Association-list lookup over the Redis key space. -/
def alookup (k : String) : List (String × String) → Option String
  | [] => none
  | (k1, v) :: rest => if k1 = k then some v else alookup k rest

/-- Association-list erase; Redis GETDEL removes the key entirely. -/
def aerase (k : String) : List (String × String) → List (String × String)
  | [] => []
  | (k1, v) :: rest => if k1 = k then aerase k rest else (k1, v) :: aerase k rest

/-- First user with the given uid, if any (SELECT ... WHERE uid = $1). -/
def findUser (uid : String) : List User → Option User
  | [] => none
  | u :: rest => if u.uid = uid then some u else findUser uid rest

/-- Replace the user row with the given uid. -/
def replaceUser (u : User) : List User → List User
  | [] => []
  | v :: rest => if v.uid = u.uid then u :: rest else v :: replaceUser u rest

/-- First metadata row with the given file_id (SELECT ... WHERE file_id = $1). -/
def findMeta (fid : String) : List Metadata → Option Metadata
  | [] => none
  | m :: rest => if m.file_id = fid then some m else findMeta fid rest

/-- Replace the metadata row with the given file_id. -/
def replaceMeta (m : Metadata) : List Metadata → List Metadata
  | [] => []
  | v :: rest => if v.file_id = m.file_id then m :: rest else v :: replaceMeta m rest

/-- DELETE FROM metadata WHERE file_id = $1. -/
def removeMeta (fid : String) : List Metadata → List Metadata
  | [] => []
  | m :: rest => if m.file_id = fid then removeMeta fid rest else m :: removeMeta fid rest

/-- The whole external state visible to the service, plus success oracles
for each fallible external collaborator and the values the environment
will produce next (random token, provider-assigned file id, clock). -/
structure World where
  tokenStore : List (String × String)
  metaStore : List Metadata
  userStore : List User
  globalConfig : GlobalConfig
  server_id : String
  vk_secret : String
  tokenStoreOk : Bool
  metaCreateOk : Bool
  metaUpdateOk : Bool
  metaQueryOk : Bool
  metaDeleteOk : String → Bool
  userUpdateOk : String → Bool
  providerUploadOk : Bool
  providerDeleteOk : String → Bool
  providerDownloadOk : String → Bool
  providerDownloadBytes : String → List Nat
  nextToken : String
  nextFileId : String
  now : Nat

/-- Result of one embedded operation: outcome, post-state, call trace. -/
abbrev RRes (α : Type) := Except ApplicationError α × World × List Event

/-- RedisTokenRepository::get_redis_key. -/
def get_redis_key (token : String) : String := "upload_token:" ++ token

/-- RedisTokenRepository::generate_token
(src/adapters/repositories/redis_token_repository.rs, lines 26-50):
one SETEX of `upload_token:token → user-id-or-empty`; a Redis failure
surfaces as InternalError. -/
def generate_token (w : World) (user_id : Option String) (ttl_seconds : Nat) :
    RRes String :=
  let token := w.nextToken
  let key := get_redis_key token
  let value := user_id.getD ""
  if w.tokenStoreOk then
    (.ok token, { w with tokenStore := (key, value) :: w.tokenStore },
      [Event.tokenSetEx key value ttl_seconds])
  else
    (.error (.internalError "Failed to store token"), w,
      [Event.tokenSetEx key value ttl_seconds])

/-- RedisTokenRepository::verify_and_consume_token
(src/adapters/repositories/redis_token_repository.rs, lines 52-82):
an atomic GETDEL; absent key → InvalidToken, empty value → anonymous,
otherwise the owning user id. -/
def verify_and_consume_token (w : World) (token : String) :
    RRes (Option String) :=
  let key := get_redis_key token
  if w.tokenStoreOk then
    let value := alookup key w.tokenStore
    let w1 := { w with tokenStore := aerase key w.tokenStore }
    match value with
    | none => (.error .invalidToken, w1, [Event.tokenGetDel key])
    | some v =>
      if v = "" then (.ok none, w1, [Event.tokenGetDel key])
      else (.ok (some v), w1, [Event.tokenGetDel key])
  else
    (.error (.internalError "Failed to verify token"), w, [Event.tokenGetDel key])

/-- PgUserRepository::get_user (src/adapters/repositories/pg_user_repository.rs):
SELECT ... WHERE uid = $1, fetch_one; a missing row is a database error. -/
def get_user (w : World) (dto : UserDTO) : RRes User :=
  match findUser dto.uid w.userStore with
  | some u => (.ok u, w, [Event.userGet dto.uid])
  | none =>
    (.error (.databaseError "no rows returned by a query that expected to return at least one row"),
      w, [Event.userGet dto.uid])

/-- Partial row update: only the present DTO fields overwrite the row. -/
def applyUserUpdate (dto : UserDTO) (u : User) : User :=
  { u with
    file_count := dto.file_count.getD u.file_count
    total_space := dto.total_space.getD u.total_space
    used_space := dto.used_space.getD u.used_space }

/-- PgUserRepository::update_user: sanitize, fall back to get_user when no
field is present, otherwise UPDATE ... RETURNING (missing row or a failed
round-trip is a database error). -/
def update_user (w : World) (dto0 : UserDTO) : RRes User :=
  let dto := dto0.sanitize
  if dto.file_count.isNone ∧ dto.total_space.isNone ∧ dto.used_space.isNone then
    get_user w dto
  else if w.userUpdateOk dto.uid then
    match findUser dto.uid w.userStore with
    | some u =>
      let u1 := applyUserUpdate dto u
      (.ok u1, { w with userStore := replaceUser u1 w.userStore }, [Event.userUpdate dto.uid])
    | none =>
      (.error (.databaseError "no rows returned by a query that expected to return at least one row"),
        w, [Event.userUpdate dto.uid])
  else
    (.error (.databaseError "update failed"), w, [Event.userUpdate dto.uid])

/-- PgMetadataRepository::create_metadata: sanitize, convert to the domain
record, INSERT ... RETURNING. -/
def create_metadata (w : World) (dto0 : MetadataDTO) : RRes Metadata :=
  let dto := dto0.sanitize
  let newMeta := dto.toMetadata w.now
  if w.metaCreateOk then
    (.ok newMeta, { w with metaStore := newMeta :: w.metaStore },
      [Event.metaCreate newMeta.file_id])
  else
    (.error (.databaseError "insert failed"), w, [Event.metaCreate newMeta.file_id])

/-- PgMetadataRepository::get_metadata: SELECT ... WHERE file_id = $1,
fetch_one. -/
def get_metadata (w : World) (file_id : String) : RRes Metadata :=
  match findMeta file_id w.metaStore with
  | some m => (.ok m, w, [Event.metaGet file_id])
  | none =>
    (.error (.databaseError "no rows returned by a query that expected to return at least one row"),
      w, [Event.metaGet file_id])

/-- Partial metadata row update mirroring the QueryBuilder in
PgMetadataRepository::update_metadata: only present DTO fields are SET;
for user_id / description / delete_at the bound value is the (Some) option
itself. -/
def applyMetaUpdate (dto : MetadataDTO) (m : Metadata) : Metadata :=
  { m with
    mime_type := dto.mime_type.getD m.mime_type
    size := dto.size.getD m.size
    user_id := if dto.user_id.isSome then dto.user_id else m.user_id
    description := if dto.description.isSome then dto.description else m.description
    file_name := dto.file_name.getD m.file_name
    server_id := dto.server_id.getD m.server_id
    uploaded_at := dto.uploaded_at.getD m.uploaded_at
    download_count := dto.download_count.getD m.download_count
    last_access := dto.last_access.getD m.last_access
    delete_at := if dto.delete_at.isSome then dto.delete_at else m.delete_at }

/-- PgMetadataRepository::update_metadata: sanitize; with no present field it
degenerates to get_metadata; otherwise UPDATE ... RETURNING. -/
def update_metadata (w : World) (dto0 : MetadataDTO) : RRes Metadata :=
  let dto := dto0.sanitize
  if dto.mime_type.isNone ∧ dto.size.isNone ∧ dto.user_id.isNone ∧
      dto.description.isNone ∧ dto.file_name.isNone ∧ dto.server_id.isNone ∧
      dto.uploaded_at.isNone ∧ dto.download_count.isNone ∧
      dto.last_access.isNone ∧ dto.delete_at.isNone then
    get_metadata w dto.file_id
  else if w.metaUpdateOk then
    match findMeta dto.file_id w.metaStore with
    | some m =>
      let m1 := applyMetaUpdate dto m
      (.ok m1, { w with metaStore := replaceMeta m1 w.metaStore },
        [Event.metaUpdate dto.file_id])
    | none =>
      (.error (.databaseError "no rows returned by a query that expected to return at least one row"),
        w, [Event.metaUpdate dto.file_id])
  else
    (.error (.databaseError "update failed"), w, [Event.metaUpdate dto.file_id])

/-- PgMetadataRepository::delete_metadata: DELETE ... RETURNING, fetch_one. -/
def delete_metadata (w : World) (file_id : String) : RRes Metadata :=
  if w.metaDeleteOk file_id then
    match findMeta file_id w.metaStore with
    | some m =>
      (.ok m, { w with metaStore := removeMeta file_id w.metaStore },
        [Event.metaDelete file_id])
    | none =>
      (.error (.databaseError "no rows returned by a query that expected to return at least one row"),
        w, [Event.metaDelete file_id])
  else
    (.error (.databaseError "delete failed"), w, [Event.metaDelete file_id])

/-- PgMetadataRepository::increment_download_count
(src/adapters/repositories/pg_metadata_repository.rs, lines 159-175):
UPDATE ... SET download_count = download_count + 1, last_access = NOW()
WHERE file_id = $1 RETURNING. -/
def increment_download_count (w : World) (file_id : String) : RRes Metadata :=
  match findMeta file_id w.metaStore with
  | some m =>
    let m1 := { m with download_count := m.download_count + 1, last_access := w.now }
    (.ok m1, { w with metaStore := replaceMeta m1 w.metaStore },
      [Event.metaIncDownload file_id])
  | none =>
    (.error (.databaseError "no rows returned by a query that expected to return at least one row"),
      w, [Event.metaIncDownload file_id])

/-- Row predicate of get_expired_files: delete_at IS NOT NULL AND
delete_at <= NOW(). -/
def isExpired (now : Nat) (m : Metadata) : Bool :=
  match m.delete_at with
  | some t => t ≤ now
  | none => false

/-- PgMetadataRepository::get_expired_files
(src/adapters/repositories/pg_metadata_repository.rs, lines 177-189). -/
def get_expired_files (w : World) : RRes (List Metadata) :=
  if w.metaQueryOk then
    (.ok (w.metaStore.filter (isExpired w.now)), w, [Event.metaGetExpired])
  else
    (.error (.databaseError "query failed"), w, [Event.metaGetExpired])

/-- Upload payload handed to a provider (src/domain/models/file.rs FileData). -/
structure FileData where
  content : List Nat
  filename : String
  mime_type : String
deriving DecidableEq, Repr

/-- Provider-side metadata (src/domain/models/file.rs FileMetadata). -/
structure FileMetadata where
  file_id : String
  size : Nat
  mime_type : String
  filename : Option String
  provider : String
deriving DecidableEq, Repr

/-- StorageService::upload of the active provider
(e.g. src/services/supabase_storage.rs, upload): assigns a provider-side
file id and echoes size / mime type / name; failures surface as
ApplicationError::InternalError via the StorageError conversion. -/
def provider_upload (w : World) (fd : FileData) : RRes FileMetadata :=
  if w.providerUploadOk then
    (.ok { file_id := w.nextFileId, size := fd.content.length,
           mime_type := fd.mime_type, filename := some fd.filename,
           provider := "provider" },
      w, [Event.providerUpload fd.content.length])
  else
    (.error (.internalError "Storage error: upload failed"), w,
      [Event.providerUpload fd.content.length])

/-- StorageService::download of the active provider. -/
def provider_download (w : World) (file_id : String) : RRes (List Nat) :=
  if w.providerDownloadOk file_id then
    (.ok (w.providerDownloadBytes file_id), w, [Event.providerDownload file_id])
  else
    (.error (.internalError "Storage error: download failed"), w,
      [Event.providerDownload file_id])

/-- StorageService::delete of the active provider. -/
def provider_delete (w : World) (file_id : String) : RRes Unit :=
  if w.providerDeleteOk file_id then
    (.ok (), w, [Event.providerDelete file_id])
  else
    (.error (.internalError "Storage error: delete failed"), w,
      [Event.providerDelete file_id])

/-- Hexadecimal character test, for the Uuid model. -/
def isHexChar (c : Char) : Bool :=
  c.isDigit || (decide ('a' ≤ c) && decide (c ≤ 'f')) ||
    (decide ('A' ≤ c) && decide (c ≤ 'F'))

/-- Split a character list at every hyphen. -/
def splitDash : List Char → List (List Char)
  | [] => [[]]
  | c :: rest =>
    let r := splitDash rest
    if c = '-' then [] :: r
    else
      match r with
      | [] => [[c]]
      | g :: gs => (c :: g) :: gs

/-- Model of Uuid::parse_str succeeding: the hyphenated 8-4-4-4-12
hexadecimal form (the format every uuid in this service is rendered in). -/
def isUuidStr (s : String) : Bool :=
  let gs := splitDash s.toList
  (gs.map List.length == [8, 4, 4, 4, 12]) && gs.all (fun g => g.all isHexChar)

/-- Controller-level token response (src/adapters/dto/token_dto.rs). -/
structure TokenResponse where
  token : String
  expires_in : Nat
deriving DecidableEq, Repr

/-- Token lifetime used by generate_upload_token (5 minutes). -/
def TOKEN_TTL_SECONDS : Nat := 300

/-- FileController::generate_upload_token
(src/adapters/controllers/file_controller.rs, lines 33-69): an owner id, if
declared, is parsed as a uuid (else BadRequest) and must name an existing
user (get_user); then exactly one token is generated and stored. -/
def generate_upload_token (w : World) (body_user_id : Option String) :
    RRes TokenResponse :=
  match body_user_id with
  | some user_id_str =>
    if isUuidStr user_id_str then
      match get_user w (UserDTO.for_query user_id_str) with
      | (.error e, w1, t1) => (.error e, w1, t1)
      | (.ok _, w1, t1) =>
        match generate_token w1 body_user_id TOKEN_TTL_SECONDS with
        | (.error e, w2, t2) => (.error e, w2, t1 ++ t2)
        | (.ok token, w2, t2) =>
          (.ok { token := token, expires_in := TOKEN_TTL_SECONDS }, w2, t1 ++ t2)
    else (.error (.badRequest "Invalid user ID format"), w, [])
  | none =>
    match generate_token w none TOKEN_TTL_SECONDS with
    | (.error e, w2, t2) => (.error e, w2, t2)
    | (.ok token, w2, t2) =>
      (.ok { token := token, expires_in := TOKEN_TTL_SECONDS }, w2, t2)

/-- The upload request after HTTP extraction: the X-Upload-Token header and
the parsed multipart parts, each optional exactly as in upload_file. -/
structure UploadRequest where
  token : Option String := none
  file_bytes : Option (List Nat) := none
  filename : Option String := none
  mime_type : Option String := none
  file_type : Option String := none
  user_id : Option String := none
  description : Option String := none
deriving DecidableEq, Repr

/-- FileController::upload_file
(src/adapters/controllers/file_controller.rs, lines 71-295), in source
order: header token (absent → Unauthorized), token consumption, required
multipart fields, policy checks against the GlobalConfig snapshot,
token/body identity consistency, quota precheck for permanent uploads,
provider upload, metadata commit, quota commit.  The source's local
variables (max_size, file_size, delete_at, the DTOs) are inlined at their
use sites; its early-return identity match (lines 203-226) is modelled as
a mismatch test followed by the continuation.  The two `unwrap`s on
`user_id` in the source sit behind the earlier `permanent → user_id
present` guard; the corresponding unreachable `none` branches replay that
guard's error. -/
def upload_file (w : World) (req : UploadRequest) : RRes Metadata :=
  match req.token with
  | none => (.error .unauthorized, w, [])
  | some token =>
    match verify_and_consume_token w token with
    | (.error e, w1, t1) => (.error e, w1, t1)
    | (.ok token_user_id, w1, t1) =>
      match req.file_bytes with
      | none => (.error (.badRequest "Missing required field"), w1, t1)
      | some file_bytes =>
        match req.filename with
        | none => (.error (.badRequest "Missing required field"), w1, t1)
        | some filename =>
          match req.mime_type with
          | none => (.error (.badRequest "Missing required field"), w1, t1)
          | some mime_type =>
            match req.file_type with
            | none => (.error (.badRequest "Missing required field"), w1, t1)
            | some file_type =>
              if w1.globalConfig.mime_types.contains mime_type = false then
                (.error (.badRequest ("MIME type not allowed: " ++ mime_type)), w1, t1)
              else if file_bytes.length > w1.globalConfig.max_size then
                (.error .payloadTooLarge, w1, t1)
              else if file_type ≠ "temporal" ∧ file_type ≠ "permanent" then
                (.error (.badRequest "Invalid type field"), w1, t1)
              else if file_type = "permanent" ∧ req.user_id.isNone then
                (.error (.badRequest "Missing user_id for permanent file"), w1, t1)
              else if (match req.user_id, token_user_id with
                       | some m, some t => t != m
                       | some _, none => true
                       | none, some _ => true
                       | none, none => false) then
                (.error .unauthorized, w1, t1)
              else
                match (if file_type = "permanent" then
                        match req.user_id with
                        | some uid_str =>
                          if isUuidStr uid_str then
                            match get_user w1 (UserDTO.for_query uid_str) with
                            | (.error e, w2, t2) => (.error e, w2, t2)
                            | (.ok user, w2, t2) =>
                              if user.used_space + file_bytes.length > user.total_space then
                                (.error .insufficientStorage, w2, t2)
                              else (.ok (some user), w2, t2)
                          else (.error (.badRequest ("Invalid UUID: " ++ uid_str)), w1, [])
                        | none =>
                          (.error (.badRequest "Missing user_id for permanent file"), w1, [])
                      else
                        ((.ok none : Except ApplicationError (Option User)), w1,
                          ([] : List Event))) with
                | (.error e, w2, t2) => (.error e, w2, t1 ++ t2)
                | (.ok user, w2, t2) =>
                  match provider_upload w2
                      { content := file_bytes, filename := filename,
                        mime_type := mime_type } with
                  | (.error e, w3, t3) => (.error e, w3, t1 ++ t2 ++ t3)
                  | (.ok storage_metadata, w3, t3) =>
                    match create_metadata w3
                        { file_id := storage_metadata.file_id
                          mime_type := some storage_metadata.mime_type
                          size := some storage_metadata.size
                          user_id := if file_type = "permanent" then req.user_id else none
                          description := req.description
                          file_name := some filename
                          server_id := some w3.server_id
                          uploaded_at := some w3.now
                          download_count := some 0
                          last_access := some w3.now
                          delete_at :=
                            if file_type = "temporal" then
                              some (w3.now + w1.globalConfig.temp_file_life)
                            else none } with
                    | (.error e, w4, t4) => (.error e, w4, t1 ++ t2 ++ t3 ++ t4)
                    | (.ok metadata, w4, t4) =>
                      if file_type = "permanent" then
                        match user with
                        | some user =>
                          match req.user_id with
                          | some uid_str =>
                            match update_user w4
                                { UserDTO.for_update uid_str with
                                  file_count := some (user.file_count + 1)
                                  used_space :=
                                    some (user.used_space + file_bytes.length) } with
                            | (.error e, w5, t5) =>
                              (.error e, w5, t1 ++ t2 ++ t3 ++ t4 ++ t5)
                            | (.ok _, w5, t5) =>
                              (.ok metadata, w5, t1 ++ t2 ++ t3 ++ t4 ++ t5)
                          | none => (.ok metadata, w4, t1 ++ t2 ++ t3 ++ t4)
                        | none => (.ok metadata, w4, t1 ++ t2 ++ t3 ++ t4)
                      else (.ok metadata, w4, t1 ++ t2 ++ t3 ++ t4)

/-- Sweep response (src/adapters/dto/file_dto.rs CleanupResponse). -/
structure CleanupResponse where
  deleted_count : Nat
  errors : List String
deriving DecidableEq, Repr

/-- Per-file body of the cleanup loop
(src/adapters/controllers/file_controller.rs, lines 316-373): provider
delete, then metadata delete, then — for an owned file whose uid parses and
whose quota row can be read — the saturating quota decrement (Nat
subtraction is exactly `saturating_sub`).  Returns the contribution to
`deleted_count`, the appended error strings, the new world and the trace. -/
def sweepOne (w : World) (fm : Metadata) : Nat × List String × World × List Event :=
  match provider_delete w fm.file_id with
  | (.error _, w1, t1) =>
    (0, ["Error deleting file " ++ fm.file_id ++ " from storage"], w1, t1)
  | (.ok _, w1, t1) =>
    match delete_metadata w1 fm.file_id with
    | (.error _, w2, t2) =>
      (0, ["Error deleting metadata for file " ++ fm.file_id], w2, t1 ++ t2)
    | (.ok _, w2, t2) =>
      match fm.user_id with
      | none => (1, [], w2, t1 ++ t2)
      | some user_id_str =>
        if isUuidStr user_id_str then
          match get_user w2 (UserDTO.for_query user_id_str) with
          | (.error _, w3, t3) => (1, [], w3, t1 ++ t2 ++ t3)
          | (.ok user, w3, t3) =>
            let update_dto :=
              { UserDTO.for_update user_id_str with
                file_count := some (user.file_count - 1)
                used_space := some (user.used_space - fm.size) }
            match update_user w3 update_dto with
            | (.error _, w4, t4) =>
              (1, ["Error updating user quota for file " ++ fm.file_id], w4,
                t1 ++ t2 ++ t3 ++ t4)
            | (.ok _, w4, t4) => (1, [], w4, t1 ++ t2 ++ t3 ++ t4)
        else (1, [], w2, t1 ++ t2)

/-- The cleanup for-loop over the expired files, accumulating count and
errors exactly as the source's mutable accumulators do. -/
def sweepLoop : World → List Metadata → Nat × List String × World × List Event
  | w, [] => (0, [], w, [])
  | w, fm :: rest =>
    match sweepOne w fm with
    | (c1, e1, w1, t1) =>
      match sweepLoop w1 rest with
      | (c2, e2, w2, t2) => (c1 + c2, e1 ++ e2, w2, t1 ++ t2)

/-- FileController::cleanup_expired_files
(src/adapters/controllers/file_controller.rs, lines 297-379): shared-secret
guard, fetch of the expired files, then the per-file loop; the response is
HTTP 200 with the count and the accumulated errors. -/
def cleanup_expired_files (w : World) (provided_secret : Option String) :
    RRes CleanupResponse :=
  match provided_secret with
  | none => (.error .unauthorized, w, [])
  | some s =>
    if s ≠ w.vk_secret then (.error .unauthorized, w, [])
    else
      match get_expired_files w with
      | (.error e, w1, t1) => (.error e, w1, t1)
      | (.ok expired, w1, t1) =>
        match sweepLoop w1 expired with
        | (count, errors, w2, t2) =>
          (.ok { deleted_count := count, errors := errors }, w2, t1 ++ t2)

/-- FileController::download_file
(src/adapters/controllers/file_controller.rs, lines 381-407): the
download-count increment is committed first, then the provider download;
the HTTP response body and headers are built from the returned pair. -/
def download_file (w : World) (file_id : String) : RRes (Metadata × List Nat) :=
  match increment_download_count w file_id with
  | (.error e, w1, t1) => (.error e, w1, t1)
  | (.ok metadata, w1, t1) =>
    match provider_download w1 file_id with
    | (.error e, w2, t2) => (.error e, w2, t1 ++ t2)
    | (.ok bytes, w2, t2) => (.ok (metadata, bytes), w2, t1 ++ t2)

/-- Body of the metadata-update endpoint (src/adapters/dto/file_dto.rs
UpdateFileRequest). -/
structure UpdateFileRequest where
  description : Option String := none
  file_name : Option String := none
  delete_at : Option Nat := none
deriving DecidableEq, Repr

/-- FileController::update_file_metadata
(src/adapters/controllers/file_controller.rs, lines 417-444): files without
an owner are immutable; otherwise description, file_name and delete_at are
forwarded in a partial-update DTO. -/
def update_file_metadata (w : World) (file_id : String) (body : UpdateFileRequest) :
    RRes Metadata :=
  match get_metadata w file_id with
  | (.error e, w1, t1) => (.error e, w1, t1)
  | (.ok current, w1, t1) =>
    if current.user_id.isNone then
      (.error (.badRequest "Cannot update metadata of temporary files"), w1, t1)
    else
      let update_dto : MetadataDTO :=
        { file_id := file_id
          description := body.description
          file_name := body.file_name
          delete_at := body.delete_at }
      match update_metadata w1 update_dto with
      | (.error e, w2, t2) => (.error e, w2, t1 ++ t2)
      | (.ok updated, w2, t2) => (.ok updated, w2, t1 ++ t2)

/-- FileController::delete_file
(src/adapters/controllers/file_controller.rs, lines 446-476): metadata
lookup, provider delete, metadata delete, then the owner's saturating quota
rollback (a failed quota read is silently skipped; a failed quota update
propagates). -/
def delete_file (w : World) (file_id : String) : RRes Unit :=
  match get_metadata w file_id with
  | (.error e, w1, t1) => (.error e, w1, t1)
  | (.ok metadata, w1, t1) =>
    match provider_delete w1 file_id with
    | (.error e, w2, t2) => (.error e, w2, t1 ++ t2)
    | (.ok _, w2, t2) =>
      match delete_metadata w2 file_id with
      | (.error e, w3, t3) => (.error e, w3, t1 ++ t2 ++ t3)
      | (.ok _, w3, t3) =>
        match metadata.user_id with
        | none => (.ok (), w3, t1 ++ t2 ++ t3)
        | some user_id_str =>
          if isUuidStr user_id_str then
            match get_user w3 (UserDTO.for_query user_id_str) with
            | (.error _, w4, t4) => (.ok (), w4, t1 ++ t2 ++ t3 ++ t4)
            | (.ok user, w4, t4) =>
              let update_dto :=
                { UserDTO.for_update user_id_str with
                  file_count := some (user.file_count - 1)
                  used_space := some (user.used_space - metadata.size) }
              match update_user w4 update_dto with
              | (.error e, w5, t5) => (.error e, w5, t1 ++ t2 ++ t3 ++ t4 ++ t5)
              | (.ok _, w5, t5) => (.ok (), w5, t1 ++ t2 ++ t3 ++ t4 ++ t5)
          else (.ok (), w3, t1 ++ t2 ++ t3)

/-- FileController::get_file_metadata
(src/adapters/controllers/file_controller.rs, lines 409-415). -/
def get_file_metadata (w : World) (file_id : String) : RRes Metadata :=
  get_metadata w file_id

/-- One externally reachable operation of the file controller, with its
request payload. -/
inductive Operation where
  | opGenerateToken (body_user_id : Option String)
  | opUpload (req : UploadRequest)
  | opDownload (file_id : String)
  | opGetMetadata (file_id : String)
  | opUpdateMetadata (file_id : String) (body : UpdateFileRequest)
  | opDelete (file_id : String)
  | opCleanup (secret : Option String)

/-- Whether an operation is the metadata-update endpoint. -/
def Operation.isMetaUpdate : Operation → Bool
  | .opUpdateMetadata _ _ => true
  | _ => false

/-- The world left behind by one operation. -/
def applyOp (w : World) : Operation → World
  | .opGenerateToken b => (generate_upload_token w b).2.1
  | .opUpload req => (upload_file w req).2.1
  | .opDownload fid => (download_file w fid).2.1
  | .opGetMetadata fid => (get_file_metadata w fid).2.1
  | .opUpdateMetadata fid b => (update_file_metadata w fid b).2.1
  | .opDelete fid => (delete_file w fid).2.1
  | .opCleanup s => (cleanup_expired_files w s).2.1

/-- The spec's two-class file taxonomy: temporary-anonymous
(owner absent, expiry present) or permanent-owned (owner present, expiry
absent) — never both markers, never neither. -/
def wellClassed (m : Metadata) : Bool :=
  (m.user_id.isNone && m.delete_at.isSome) || (m.user_id.isSome && m.delete_at.isNone)

/-- The invariant of claim C4 over a whole metadata store. -/
abbrev MetaInv (w : World) : Prop := w.metaStore.all wellClassed = true

/-- Events strictly after the first occurrence of `e` in a trace. -/
def eventsAfter (e : Event) (tr : List Event) : List Event :=
  (tr.dropWhile (fun x => x != e)).drop 1

/-- A fully healthy world with no stored data: every external collaborator
succeeds, the policy allows text/plain up to 1000 bytes, temporary files
live 60 seconds, and the clock reads 1000. -/
def baseWorld : World :=
  { tokenStore := []
    metaStore := []
    userStore := []
    globalConfig := { mime_types := ["text/plain"], max_size := 1000, chunk_size := 100,
                      temp_file_life := 60, default_quota := 1000 }
    server_id := "srv"
    vk_secret := "sec"
    tokenStoreOk := true
    metaCreateOk := true
    metaUpdateOk := true
    metaQueryOk := true
    metaDeleteOk := fun _ => true
    userUpdateOk := fun _ => true
    providerUploadOk := true
    providerDeleteOk := fun _ => true
    providerDownloadOk := fun _ => true
    providerDownloadBytes := fun _ => []
    nextToken := "tok"
    nextFileId := "f1"
    now := 1000 }

/-- A well-formed hyphenated uuid used as a concrete owner id. -/
def uuidA : String := "aaaaaaaa-aaaa-aaaa-aaaa-aaaaaaaaaaaa"

/-- World holding one owned upload token, for the C1 witness. -/
def wC1 : World :=
  { baseWorld with tokenStore := [("upload_token:tok", uuidA)] }

/-- World with an owned token and an almost-full quota (95 of 100 used),
for C2. -/
def wC2 : World :=
  { baseWorld with
    tokenStore := [("upload_token:tok", uuidA)]
    userStore := [{ uid := uuidA, file_count := 1, total_space := 100, used_space := 95 }] }

/-- A 10-byte permanent upload request for owner uuidA carrying the token. -/
def reqC2 : UploadRequest :=
  { token := some "tok"
    file_bytes := some [0, 0, 0, 0, 0, 0, 0, 0, 0, 0]
    filename := some "a.txt"
    mime_type := some "text/plain"
    file_type := some "permanent"
    user_id := some uuidA }

/-- World holding one anonymous upload token, for the C3 witness. -/
def wC3 : World :=
  { baseWorld with tokenStore := [("upload_token:tok", "")] }

/-- A temporal upload request that declares owner uuidA, for the C3
witness (anonymous token against a declared owner). -/
def reqC3 : UploadRequest :=
  { token := some "tok"
    file_bytes := some [0, 0, 0]
    filename := some "a.txt"
    mime_type := some "text/plain"
    file_type := some "temporal"
    user_id := some uuidA }

/-- A permanent-owned metadata record (owner uuidA, no expiry). -/
def mPerm : Metadata :=
  { file_id := "f1"
    mime_type := "text/plain"
    size := 7
    user_id := some uuidA
    description := none
    file_name := "a.txt"
    server_id := "srv"
    uploaded_at := 900
    download_count := 0
    last_access := 900
    delete_at := none }

/-- World holding one permanent-owned file, for C4 and C10. -/
def wC4 : World := { baseWorld with metaStore := [mPerm] }

/-- World with an owned token and a half-full quota (50 of 100 used), for
the C5 counterexample: the permanent upload succeeds end to end. -/
def wC5 : World :=
  { baseWorld with
    tokenStore := [("upload_token:tok", uuidA)]
    userStore := [{ uid := uuidA, file_count := 1, total_space := 100, used_space := 50 }] }

/-- An expired temporary-owned-looking record is impossible by C4; the
expired record used for the sweep counterexamples is owned AND expired,
exactly the shape the metadata-update endpoint can produce. -/
def mExpOwned : Metadata :=
  { file_id := "f1"
    mime_type := "text/plain"
    size := 7
    user_id := some uuidA
    description := none
    file_name := "a.txt"
    server_id := "srv"
    uploaded_at := 5
    download_count := 0
    last_access := 5
    delete_at := some 10 }

/-- World with one expired owned file whose owner has no quota row: the
sweep's quota read fails and is silently skipped (C6). -/
def wC6 : World := { baseWorld with metaStore := [mExpOwned] }

/-- World with one expired owned file, a present owner quota row, and a
failing quota-update write (C7). -/
def wC7 : World :=
  { baseWorld with
    metaStore := [mExpOwned]
    userStore := [{ uid := uuidA, file_count := 3, total_space := 100, used_space := 50 }]
    userUpdateOk := fun _ => false }

/-- World whose token store is down, for the C8 witness. -/
def wC8down : World := { baseWorld with tokenStoreOk := false }

/-- A temporary-anonymous record expiring at 2000, not yet expired at
clock 1000 (C9 witness). -/
def mTempFuture : Metadata :=
  { file_id := "f2"
    mime_type := "text/plain"
    size := 3
    user_id := none
    description := none
    file_name := "b.txt"
    server_id := "srv"
    uploaded_at := 900
    download_count := 0
    last_access := 900
    delete_at := some 2000 }

/-- World with one not-yet-expired temporary file (C9 witness). -/
def wC9 : World := { baseWorld with metaStore := [mTempFuture] }

/-- World with one stored file and a failing provider download (C10
witness). -/
def wC10 : World :=
  { baseWorld with
    metaStore := [mPerm]
    providerDownloadOk := fun _ => false }

end VK




namespace VK

theorem alookup_aerase (k : String) (l : List (String × String)) :
    alookup k (aerase k l) = none := by
  induction l with
  | nil => rfl
  | cons p rest ih =>
    obtain ⟨k1, v⟩ := p
    by_cases h : k1 = k
    · simpa [aerase, h] using ih
    · simp [aerase, alookup, h, ih]

theorem C1_consume_single_use (w : World) (tok : String)
    (hok : w.tokenStoreOk = true) :
    (∀ r w1 tr, verify_and_consume_token w tok = (.ok r, w1, tr) →
      (verify_and_consume_token w1 tok).1 = .error .invalidToken) ∧
    (alookup (get_redis_key tok) w.tokenStore = none →
      verify_and_consume_token w tok =
        (.error .invalidToken,
         { w with tokenStore := aerase (get_redis_key tok) w.tokenStore },
         [Event.tokenGetDel (get_redis_key tok)])) ∧
    (alookup (get_redis_key tok) w.tokenStore = some "" →
      verify_and_consume_token w tok =
        (.ok none,
         { w with tokenStore := aerase (get_redis_key tok) w.tokenStore },
         [Event.tokenGetDel (get_redis_key tok)])) ∧
    (∀ owner, owner ≠ "" →
      alookup (get_redis_key tok) w.tokenStore = some owner →
      verify_and_consume_token w tok =
        (.ok (some owner),
         { w with tokenStore := aerase (get_redis_key tok) w.tokenStore },
         [Event.tokenGetDel (get_redis_key tok)])) := by
  refine ⟨?_, ?_, ?_, ?_⟩
  · intro r w1 tr h
    cases hv : alookup (get_redis_key tok) w.tokenStore with
    | none => simp [verify_and_consume_token, hok, hv] at h
    | some v =>
      by_cases hve : v = ""
      · subst hve
        simp [verify_and_consume_token, hok, hv] at h
        obtain ⟨-, hw, -⟩ := h
        subst hw
        simp [verify_and_consume_token, hok, alookup_aerase]
      · simp [verify_and_consume_token, hok, hv, hve] at h
        obtain ⟨-, hw, -⟩ := h
        subst hw
        simp [verify_and_consume_token, hok, alookup_aerase]
  · intro h
    simp [verify_and_consume_token, hok, h]
  · intro h
    simp [verify_and_consume_token, hok, h]
  · intro owner hne h
    simp [verify_and_consume_token, hok, h, hne]

theorem C1_witness :
    wC1.tokenStoreOk = true ∧ uuidA ≠ "" ∧
    alookup (get_redis_key "tok") wC1.tokenStore = some uuidA ∧
    verify_and_consume_token wC1 "tok" =
      (.ok (some uuidA),
       { wC1 with tokenStore := aerase (get_redis_key "tok") wC1.tokenStore },
       [Event.tokenGetDel (get_redis_key "tok")]) :=
  ⟨rfl, by decide, rfl,
    (C1_consume_single_use wC1 "tok" rfl).2.2.2 uuidA (by decide) rfl⟩

theorem C8_issue (w : World) (owner : Option String) (ttl : Nat) :
    (w.tokenStoreOk = true →
      generate_token w owner ttl =
        (.ok w.nextToken,
         { w with tokenStore := (get_redis_key w.nextToken, owner.getD "") :: w.tokenStore },
         [Event.tokenSetEx (get_redis_key w.nextToken) (owner.getD "") ttl])) ∧
    (w.tokenStoreOk = false →
      generate_token w owner ttl =
        (.error (.internalError "Failed to store token"), w,
         [Event.tokenSetEx (get_redis_key w.nextToken) (owner.getD "") ttl])) ∧
    (∀ s, isUuidStr s = false →
      generate_upload_token w (some s) =
        (.error (.badRequest "Invalid user ID format"), w, [])) := by
  refine ⟨?_, ?_, ?_⟩
  · intro h; simp [generate_token, h]
  · intro h; simp [generate_token, h]
  · intro s hs; simp [generate_upload_token, hs]

theorem C8_witness :
    baseWorld.tokenStoreOk = true ∧
    generate_token baseWorld (some uuidA) 300 =
      (.ok baseWorld.nextToken,
       { baseWorld with tokenStore :=
           (get_redis_key baseWorld.nextToken, (some uuidA).getD "") :: baseWorld.tokenStore },
       [Event.tokenSetEx (get_redis_key baseWorld.nextToken) ((some uuidA).getD "") 300]) :=
  ⟨rfl, (C8_issue baseWorld (some uuidA) 300).1 rfl⟩

theorem C8_counterexample :
    generate_upload_token baseWorld (some "not-a-uuid") =
      (.error (.badRequest "Invalid user ID format"), baseWorld, []) ∧
    baseWorld.tokenStoreOk = true :=
  ⟨rfl, rfl⟩

theorem C9_sweep_idempotent (w : World) (s : String)
    (hsec : s = w.vk_secret) (hq : w.metaQueryOk = true)
    (hnone : ∀ m ∈ w.metaStore, isExpired w.now m = false) :
    cleanup_expired_files w (some s) =
      (.ok { deleted_count := 0, errors := [] }, w, [Event.metaGetExpired]) ∧
    cleanup_expired_files (cleanup_expired_files w (some s)).2.1 (some s) =
      (.ok { deleted_count := 0, errors := [] }, w, [Event.metaGetExpired]) := by
  have hfilter : w.metaStore.filter (isExpired w.now) = [] := by
    rw [List.filter_eq_nil_iff]
    intro a ha
    simp [hnone a ha]
  have h1 : cleanup_expired_files w (some s) =
      (.ok { deleted_count := 0, errors := [] }, w, [Event.metaGetExpired]) := by
    simp [cleanup_expired_files, hsec, get_expired_files, hq, hfilter, sweepLoop]
  refine ⟨h1, ?_⟩
  rw [h1]
  exact h1

theorem C9_witness :
    "sec" = wC9.vk_secret ∧ wC9.metaQueryOk = true ∧
    (∀ m ∈ wC9.metaStore, isExpired wC9.now m = false) ∧
    cleanup_expired_files wC9 (some "sec") =
      (.ok { deleted_count := 0, errors := [] }, wC9, [Event.metaGetExpired]) ∧
    cleanup_expired_files (cleanup_expired_files wC9 (some "sec")).2.1 (some "sec") =
      (.ok { deleted_count := 0, errors := [] }, wC9, [Event.metaGetExpired]) := by
  have h := C9_sweep_idempotent wC9 "sec" rfl rfl (by decide)
  exact ⟨rfl, rfl, by decide, h.1, h.2⟩

theorem C10_download_increment_persists (w : World) (fid : String) (m : Metadata)
    (hfind : findMeta fid w.metaStore = some m)
    (hfail : w.providerDownloadOk fid = false) :
    download_file w fid =
      (.error (.internalError "Storage error: download failed"),
       { w with metaStore := (replaceMeta
           { m with download_count := m.download_count + 1, last_access := w.now }
           w.metaStore) },
       [Event.metaIncDownload fid, Event.providerDownload fid]) := by
  simp [download_file, increment_download_count, hfind, provider_download, hfail]

theorem C10_witness :
    findMeta "f1" wC10.metaStore = some mPerm ∧
    wC10.providerDownloadOk "f1" = false ∧
    download_file wC10 "f1" =
      (.error (.internalError "Storage error: download failed"),
       { wC10 with metaStore := (replaceMeta
           { mPerm with download_count := mPerm.download_count + 1, last_access := wC10.now }
           wC10.metaStore) },
       [Event.metaIncDownload "f1", Event.providerDownload "f1"]) :=
  ⟨rfl, rfl, C10_download_increment_persists wC10 "f1" mPerm rfl rfl⟩


theorem C2_quota_precheck (w : World) (tok owner : String) (bs : List Nat)
    (fn mt : String) (desc : Option String) (u : User)
    (hok : w.tokenStoreOk = true)
    (htok : alookup (get_redis_key tok) w.tokenStore = some owner)
    (howner : owner ≠ "")
    (hmime : w.globalConfig.mime_types.contains mt = true)
    (hsize : bs.length ≤ w.globalConfig.max_size)
    (huuid : isUuidStr owner = true)
    (huser : findUser owner w.userStore = some u)
    (hquota : u.used_space + bs.length > u.total_space) :
    upload_file w
      { token := some tok, file_bytes := some bs, filename := some fn,
        mime_type := some mt, file_type := some "permanent",
        user_id := some owner, description := desc } =
      (.error .insufficientStorage,
       { w with tokenStore := aerase (get_redis_key tok) w.tokenStore },
       [Event.tokenGetDel (get_redis_key tok), Event.userGet owner]) := by
  have hnotlt : ¬ (bs.length > w.globalConfig.max_size) := not_lt.mpr hsize
  have hmem : mt ∈ w.globalConfig.mime_types := by simpa using hmime
  simp [upload_file, verify_and_consume_token, hok, htok, howner, hmem, hnotlt,
        huuid, get_user, UserDTO.for_query, huser, hquota]


theorem C2_counterexample :
    (upload_file wC2 reqC2).1 = .error .insufficientStorage ∧
    (upload_file wC2 reqC2).2.1.tokenStore = [] ∧
    wC2.tokenStore = [("upload_token:tok", uuidA)] :=
  ⟨by decide, by decide, rfl⟩

theorem C2_witness :
    wC2.tokenStoreOk = true ∧
    alookup (get_redis_key "tok") wC2.tokenStore = some uuidA ∧
    uuidA ≠ "" ∧
    wC2.globalConfig.mime_types.contains "text/plain" = true ∧
    ([0, 0, 0, 0, 0, 0, 0, 0, 0, 0] : List Nat).length ≤ wC2.globalConfig.max_size ∧
    isUuidStr uuidA = true ∧
    findUser uuidA wC2.userStore =
      some { uid := uuidA, file_count := 1, total_space := 100, used_space := 95 } ∧
    upload_file wC2
      { token := some "tok", file_bytes := some [0, 0, 0, 0, 0, 0, 0, 0, 0, 0],
        filename := some "a.txt", mime_type := some "text/plain",
        file_type := some "permanent", user_id := some uuidA, description := none } =
      (.error .insufficientStorage,
       { wC2 with tokenStore := aerase (get_redis_key "tok") wC2.tokenStore },
       [Event.tokenGetDel (get_redis_key "tok"), Event.userGet uuidA]) :=
  ⟨rfl, rfl, by decide, rfl, by decide, by decide, rfl,
   C2_quota_precheck wC2 "tok" uuidA [0, 0, 0, 0, 0, 0, 0, 0, 0, 0] "a.txt" "text/plain"
     none { uid := uuidA, file_count := 1, total_space := 100, used_space := 95 }
     rfl rfl (by decide) rfl (by decide) (by decide) rfl (by decide)⟩

theorem C3_identity_mismatch (w : World) (tok v : String)
    (bs : List Nat) (fn mt ft : String) (muid : Option String) (desc : Option String)
    (hok : w.tokenStoreOk = true)
    (htok : alookup (get_redis_key tok) w.tokenStore = some v)
    (hmime : w.globalConfig.mime_types.contains mt = true)
    (hsize : bs.length ≤ w.globalConfig.max_size)
    (hft : ft = "temporal" ∨ ft = "permanent")
    (hperm : ft = "permanent" → muid.isSome = true)
    (hmismatch : muid ≠ (if v = "" then none else some v)) :
    upload_file w
      { token := some tok, file_bytes := some bs, filename := some fn,
        mime_type := some mt, file_type := some ft,
        user_id := muid, description := desc } =
      (.error .unauthorized,
       { w with tokenStore := aerase (get_redis_key tok) w.tokenStore },
       [Event.tokenGetDel (get_redis_key tok)]) := by
  have hnotlt : ¬ (bs.length > w.globalConfig.max_size) := not_lt.mpr hsize
  have hmem : mt ∈ w.globalConfig.mime_types := by simpa using hmime
  have hft2 : ¬ (ft ≠ "temporal" ∧ ft ≠ "permanent") := by
    rcases hft with h | h <;> simp [h]
  rcases muid with _ | m
  · have hv : v ≠ "" := by
      intro h
      exact hmismatch (by simp [h])
    have hft3 : ft ≠ "permanent" := by
      intro h
      simpa using hperm h
    have hftt : ft = "temporal" := by
      rcases hft with h | h
      · exact h
      · exact absurd h hft3
    simp [upload_file, verify_and_consume_token, hok, htok, hv, hmem, hnotlt, hftt]
  · by_cases hve : v = ""
    · subst hve
      simp [upload_file, verify_and_consume_token, hok, htok, hmem, hnotlt, hft2]
    · have hmv : v ≠ m := by
        intro h
        subst h
        exact hmismatch (by rw [if_neg hve])
      simp [upload_file, verify_and_consume_token, hok, htok, hve, hmem, hnotlt, hft2, hmv]

theorem C3_witness :
    wC3.tokenStoreOk = true ∧
    alookup (get_redis_key "tok") wC3.tokenStore = some "" ∧
    (some uuidA ≠ (if ("" : String) = "" then none else some "")) ∧
    upload_file wC3
      { token := some "tok", file_bytes := some [0, 0, 0], filename := some "a.txt",
        mime_type := some "text/plain", file_type := some "temporal",
        user_id := some uuidA, description := none } =
      (.error .unauthorized,
       { wC3 with tokenStore := aerase (get_redis_key "tok") wC3.tokenStore },
       [Event.tokenGetDel (get_redis_key "tok")]) :=
  ⟨rfl, rfl, by decide,
   C3_identity_mismatch wC3 "tok" "" [0, 0, 0] "a.txt" "text/plain" "temporal"
     (some uuidA) none rfl rfl rfl (by decide) (Or.inl rfl) (by decide) (by decide)⟩


theorem C5_quota_commit_no_reread (w : World) (tok owner : String) (bs : List Nat)
    (fn mt : String) (desc : Option String) (u : User)
    (hok : w.tokenStoreOk = true)
    (htok : alookup (get_redis_key tok) w.tokenStore = some owner)
    (howner : owner ≠ "")
    (hmime : w.globalConfig.mime_types.contains mt = true)
    (hsize : bs.length ≤ w.globalConfig.max_size)
    (huuid : isUuidStr owner = true)
    (huser : findUser owner w.userStore = some u)
    (hquota : u.used_space + bs.length ≤ u.total_space)
    (hfc : u.file_count + 1 ≤ i64Max)
    (hus : u.used_space + bs.length ≤ i64Max)
    (hprov : w.providerUploadOk = true)
    (hcreate : w.metaCreateOk = true)
    (hupd : w.userUpdateOk owner = true) :
    upload_file w
      { token := some tok, file_bytes := some bs, filename := some fn,
        mime_type := some mt, file_type := some "permanent",
        user_id := some owner, description := desc } =
      (.ok { file_id := w.nextFileId, mime_type := mt, size := bs.length,
             user_id := some owner, description := desc, file_name := fn,
             server_id := w.server_id, uploaded_at := w.now, download_count := 0,
             last_access := w.now, delete_at := none },
       { w with
         tokenStore := aerase (get_redis_key tok) w.tokenStore
         metaStore :=
           { file_id := w.nextFileId, mime_type := mt, size := bs.length,
             user_id := some owner, description := desc, file_name := fn,
             server_id := w.server_id, uploaded_at := w.now, download_count := 0,
             last_access := w.now, delete_at := none } :: w.metaStore
         userStore := (replaceUser
           { u with file_count := u.file_count + 1, used_space := u.used_space + bs.length }
           w.userStore) },
       [Event.tokenGetDel (get_redis_key tok), Event.userGet owner,
        Event.providerUpload bs.length, Event.metaCreate w.nextFileId,
        Event.userUpdate owner]) := by
  have hnotlt : ¬ (bs.length > w.globalConfig.max_size) := not_lt.mpr hsize
  have hmem : mt ∈ w.globalConfig.mime_types := by simpa using hmime
  have hnq : ¬ (u.used_space + bs.length > u.total_space) := not_lt.mpr hquota
  have hbs : bs.length ≤ i64Max := le_trans (Nat.le_add_left _ _) hus
  have h1 : min bs.length i64Max = bs.length := Nat.min_eq_left hbs
  have h2 : min (u.file_count + 1) i64Max = u.file_count + 1 := Nat.min_eq_left hfc
  have h3 : min (u.used_space + bs.length) i64Max = u.used_space + bs.length :=
    Nat.min_eq_left hus
  simp [upload_file, verify_and_consume_token, hok, htok, howner, hmem, hnotlt, huuid,
        get_user, UserDTO.for_query, huser, hnq, provider_upload, hprov,
        create_metadata, MetadataDTO.sanitize, MetadataDTO.toMetadata, hcreate,
        update_user, UserDTO.sanitize, UserDTO.for_update, hupd, applyUserUpdate,
        h1, h2, h3]


theorem C5_counterexample :
    (upload_file wC5 reqC2).1 =
      .ok { file_id := "f1", mime_type := "text/plain", size := 10,
            user_id := some uuidA, description := none, file_name := "a.txt",
            server_id := "srv", uploaded_at := 1000, download_count := 0,
            last_access := 1000, delete_at := none } ∧
    (upload_file wC5 reqC2).2.2 =
      [Event.tokenGetDel "upload_token:tok", Event.userGet uuidA,
       Event.providerUpload 10, Event.metaCreate "f1", Event.userUpdate uuidA] ∧
    ((upload_file wC5 reqC2).2.2.filter (fun e => e == Event.userGet uuidA)).length = 1 ∧
    eventsAfter (Event.providerUpload 10) (upload_file wC5 reqC2).2.2 =
      [Event.metaCreate "f1", Event.userUpdate uuidA] ∧
    (upload_file wC5 reqC2).2.1.userStore =
      [{ uid := uuidA, file_count := 2, total_space := 100, used_space := 60 }] :=
  ⟨by decide, by decide, by decide, by decide, by decide⟩

theorem C5_witness :
    wC5.tokenStoreOk = true ∧
    alookup (get_redis_key "tok") wC5.tokenStore = some uuidA ∧
    uuidA ≠ "" ∧
    wC5.globalConfig.mime_types.contains "text/plain" = true ∧
    ([0, 0, 0, 0, 0, 0, 0, 0, 0, 0] : List Nat).length ≤ wC5.globalConfig.max_size ∧
    isUuidStr uuidA = true ∧
    findUser uuidA wC5.userStore =
      some { uid := uuidA, file_count := 1, total_space := 100, used_space := 50 } ∧
    upload_file wC5
      { token := some "tok", file_bytes := some [0, 0, 0, 0, 0, 0, 0, 0, 0, 0],
        filename := some "a.txt", mime_type := some "text/plain",
        file_type := some "permanent", user_id := some uuidA, description := none } =
      (.ok { file_id := wC5.nextFileId, mime_type := "text/plain", size := 10,
             user_id := some uuidA, description := none, file_name := "a.txt",
             server_id := wC5.server_id, uploaded_at := wC5.now, download_count := 0,
             last_access := wC5.now, delete_at := none },
       { wC5 with
         tokenStore := aerase (get_redis_key "tok") wC5.tokenStore
         metaStore :=
           { file_id := wC5.nextFileId, mime_type := "text/plain", size := 10,
             user_id := some uuidA, description := none, file_name := "a.txt",
             server_id := wC5.server_id, uploaded_at := wC5.now, download_count := 0,
             last_access := wC5.now, delete_at := none } :: wC5.metaStore
         userStore := (replaceUser
           { uid := uuidA, file_count := 2, total_space := 100, used_space := 60 }
           wC5.userStore) },
       [Event.tokenGetDel (get_redis_key "tok"), Event.userGet uuidA,
        Event.providerUpload 10, Event.metaCreate wC5.nextFileId,
        Event.userUpdate uuidA]) :=
  ⟨rfl, rfl, by decide, rfl, by decide, by decide, rfl,
   C5_quota_commit_no_reread wC5 "tok" uuidA [0, 0, 0, 0, 0, 0, 0, 0, 0, 0] "a.txt"
     "text/plain" none { uid := uuidA, file_count := 1, total_space := 100, used_space := 50 }
     rfl rfl (by decide) rfl (by decide) (by decide) rfl (by decide) (by decide)
     (by decide) rfl rfl rfl⟩

theorem verify_consume_metaStore (w : World) (tok : String) :
    (verify_and_consume_token w tok).2.1.metaStore = w.metaStore := by
  unfold verify_and_consume_token
  by_cases h : w.tokenStoreOk
  · simp only [h, if_true]
    cases alookup (get_redis_key tok) w.tokenStore with
    | none => simp
    | some v => by_cases hv : v = "" <;> simp [hv]
  · simp [h]

theorem get_user_world (w : World) (dto : UserDTO) : (get_user w dto).2.1 = w := by
  unfold get_user
  cases findUser dto.uid w.userStore <;> simp

theorem update_user_metaStore (w : World) (dto : UserDTO) :
    (update_user w dto).2.1.metaStore = w.metaStore := by
  simp only [update_user]
  split
  · rw [get_user_world]
  · split
    · split
      · rfl
      · rfl
    · rfl

theorem provider_upload_world (w : World) (fd : FileData) :
    (provider_upload w fd).2.1 = w := by
  unfold provider_upload
  by_cases h : w.providerUploadOk <;> simp [h]

theorem provider_delete_world (w : World) (fid : String) :
    (provider_delete w fid).2.1 = w := by
  unfold provider_delete
  by_cases h : w.providerDeleteOk fid <;> simp [h]

theorem provider_download_world (w : World) (fid : String) :
    (provider_download w fid).2.1 = w := by
  unfold provider_download
  by_cases h : w.providerDownloadOk fid <;> simp [h]

theorem get_metadata_world (w : World) (fid : String) :
    (get_metadata w fid).2.1 = w := by
  unfold get_metadata
  cases findMeta fid w.metaStore <;> simp

theorem create_metadata_metaStore (w : World) (dto : MetadataDTO) :
    (create_metadata w dto).2.1.metaStore =
      if w.metaCreateOk then dto.sanitize.toMetadata w.now :: w.metaStore
      else w.metaStore := by
  unfold create_metadata
  by_cases h : w.metaCreateOk <;> simp [h]

theorem mem_removeMeta {x : Metadata} {fid : String} {l : List Metadata}
    (hx : x ∈ removeMeta fid l) : x ∈ l := by
  induction l with
  | nil => simp [removeMeta] at hx
  | cons m rest ih =>
    simp only [removeMeta] at hx
    split at hx
    · exact List.mem_cons_of_mem m (ih hx)
    · rcases List.mem_cons.mp hx with h1 | h1
      · rw [h1]
        exact List.mem_cons_self m rest
      · exact List.mem_cons_of_mem m (ih h1)

theorem mem_replaceMeta {x m : Metadata} {l : List Metadata}
    (hx : x ∈ replaceMeta m l) : x = m ∨ x ∈ l := by
  induction l with
  | nil => simp [replaceMeta] at hx
  | cons v rest ih =>
    simp only [replaceMeta] at hx
    split at hx
    · rcases List.mem_cons.mp hx with h1 | h1
      · exact Or.inl h1
      · exact Or.inr (List.mem_cons_of_mem v h1)
    · rcases List.mem_cons.mp hx with h1 | h1
      · rw [h1]
        exact Or.inr (List.mem_cons_self v rest)
      · rcases ih h1 with h2 | h2
        · exact Or.inl h2
        · exact Or.inr (List.mem_cons_of_mem v h2)

theorem findMeta_mem {fid : String} {l : List Metadata} {m : Metadata}
    (h : findMeta fid l = some m) : m ∈ l := by
  induction l with
  | nil => simp [findMeta] at h
  | cons v rest ih =>
    simp only [findMeta] at h
    split at h
    · rw [← Option.some.inj h]
      exact List.mem_cons_self v rest
    · exact List.mem_cons_of_mem v (ih h)

theorem delete_metadata_mem (w : World) (fid : String) {x : Metadata}
    (hx : x ∈ (delete_metadata w fid).2.1.metaStore) : x ∈ w.metaStore := by
  unfold delete_metadata at hx
  split at hx
  · split at hx
    · exact mem_removeMeta hx
    · exact hx
  · exact hx

theorem increment_download_inv (w : World) (fid : String)
    (h : ∀ x ∈ w.metaStore, wellClassed x = true) :
    ∀ x ∈ (increment_download_count w fid).2.1.metaStore, wellClassed x = true := by
  intro x hx
  unfold increment_download_count at hx
  split at hx
  · rename_i m hf
    rcases mem_replaceMeta hx with h1 | h1
    · have hm := h m (findMeta_mem hf)
      rw [h1]
      simpa [wellClassed] using hm
    · exact h x h1
  · exact h x hx


theorem get_user_eta (w : World) (dto : UserDTO) :
    get_user w dto = ((get_user w dto).1, w, [Event.userGet dto.uid]) := by
  unfold get_user
  cases findUser dto.uid w.userStore <;> rfl

theorem provider_upload_eta (w : World) (fd : FileData) :
    provider_upload w fd =
      ((provider_upload w fd).1, w, [Event.providerUpload fd.content.length]) := by
  unfold provider_upload
  by_cases h : w.providerUploadOk <;> simp [h]

theorem create_metadata_error_world {w : World} {dto : MetadataDTO}
    {e : ApplicationError} {w4 : World} {t4 : List Event}
    (h : create_metadata w dto = (.error e, w4, t4)) : w4 = w := by
  unfold create_metadata at h
  split at h
  · simp at h
  · simp only [Prod.mk.injEq] at h
    exact h.2.1.symm

theorem create_metadata_ok_inv {w : World} {dto : MetadataDTO}
    {m : Metadata} {w4 : World} {t4 : List Event}
    (h : create_metadata w dto = (.ok m, w4, t4)) :
    m = dto.sanitize.toMetadata w.now ∧
    w4 = { w with metaStore := dto.sanitize.toMetadata w.now :: w.metaStore } := by
  unfold create_metadata at h
  split at h
  · simp only [Prod.mk.injEq, Except.ok.injEq] at h
    exact ⟨h.1.symm, h.2.1.symm⟩
  · simp at h

set_option maxHeartbeats 2000000 in
theorem upload_metaStore (w : World) (req : UploadRequest) :
    (upload_file w req).2.1.metaStore = w.metaStore ∨
    ∃ m, wellClassed m = true ∧ (upload_file w req).2.1.metaStore = m :: w.metaStore := by
  unfold upload_file
  split
  · exact Or.inl rfl
  rename_i tok heqtok
  split
  · rename_i e w1 t1 heq
    refine Or.inl ?_
    have h1 := verify_consume_metaStore w tok
    rw [heq] at h1
    exact h1
  rename_i tuid w1 t1 heq
  have hw1 : w1.metaStore = w.metaStore := by
    have h1 := verify_consume_metaStore w tok
    rw [heq] at h1
    exact h1
  split
  · exact Or.inl hw1
  rename_i bs heqbs
  split
  · exact Or.inl hw1
  rename_i fn heqfn
  split
  · exact Or.inl hw1
  rename_i mt heqmt
  split
  · exact Or.inl hw1
  rename_i ft heqft
  split
  · exact Or.inl hw1
  split
  · exact Or.inl hw1
  split
  · exact Or.inl hw1
  rename_i hftok
  split
  · exact Or.inl hw1
  rename_i hpermuid
  split
  · exact Or.inl hw1
  rename_i hident
  by_cases hperm : ft = "permanent"
  · -- permanent upload path
    have hnt : ¬ (ft = "temporal") := by
      rw [hperm]
      decide
    cases hme : req.user_id with
    | none =>
      refine absurd ?_ hpermuid
      refine ⟨hperm, ?_⟩
      rw [hme]
      rfl
    | some m =>
      simp only [hme, if_pos hperm, if_neg hnt]
      split
      · -- aborted inside the quota-precheck stage
        rename_i e w2 t2 hequr
        refine Or.inl ?_
        split at hequr
        · split at hequr
          · rename_i e0 w2b t2b heqg
            have h2 := congrArg (fun p => p.2.1) heqg
            dsimp only at h2
            rw [get_user_world] at h2
            simp only [Prod.mk.injEq, Except.error.injEq] at hequr
            obtain ⟨he, hwb, htb⟩ := hequr
            subst hwb
            subst h2
            exact hw1
          · rename_i u w2b t2b heqg
            have h2 := congrArg (fun p => p.2.1) heqg
            dsimp only at h2
            rw [get_user_world] at h2
            split at hequr
            · simp only [Prod.mk.injEq, Except.error.injEq] at hequr
              obtain ⟨he, hwb, htb⟩ := hequr
              subst hwb
              subst h2
              exact hw1
            · simp at hequr
        · simp only [Prod.mk.injEq, Except.error.injEq] at hequr
          obtain ⟨he, hwb, htb⟩ := hequr
          subst hwb
          exact hw1
      · -- quota precheck passed
        rename_i user w2 t2 hequr
        split at hequr
        · split at hequr
          · simp at hequr
          · rename_i u w2b t2b heqg
            have h2 := congrArg (fun p => p.2.1) heqg
            dsimp only at h2
            rw [get_user_world] at h2
            split at hequr
            · simp at hequr
            · simp only [Prod.mk.injEq, Except.ok.injEq] at hequr
              obtain ⟨hu, hwb, htb⟩ := hequr
              subst hwb
              subst h2
              subst hu
              dsimp only
              split
              · rename_i e3 w3 t3 heqp
                have h3 := congrArg (fun p => p.2.1) heqp
                dsimp only at h3
                rw [provider_upload_world] at h3
                subst h3
                exact Or.inl hw1
              rename_i sm w3 t3 heqp
              have h3 := congrArg (fun p => p.2.1) heqp
              dsimp only at h3
              rw [provider_upload_world] at h3
              subst h3
              split
              · rename_i e4 w4 t4 heqc
                have h4 := create_metadata_error_world heqc
                subst h4
                exact Or.inl hw1
              rename_i metadata w4 t4 heqc
              obtain ⟨hm, hw4⟩ := create_metadata_ok_inv heqc
              subst hw4
              split
              · rename_i e5 w5 t5 heqU
                have h5 := congrArg (fun p => p.2.1.metaStore) heqU
                dsimp only at h5
                rw [update_user_metaStore] at h5
                dsimp only at h5
                refine Or.inr ⟨metadata, ?_, ?_⟩
                · rw [hm]
                  simp [wellClassed, MetadataDTO.sanitize, MetadataDTO.toMetadata]
                · dsimp only
                  rw [← h5, ← hm, hw1]
              · rename_i r5 w5 t5 heqU
                have h5 := congrArg (fun p => p.2.1.metaStore) heqU
                dsimp only at h5
                rw [update_user_metaStore] at h5
                dsimp only at h5
                refine Or.inr ⟨metadata, ?_, ?_⟩
                · rw [hm]
                  simp [wellClassed, MetadataDTO.sanitize, MetadataDTO.toMetadata]
                · dsimp only
                  rw [← h5, ← hm, hw1]
        · simp at hequr
  · -- temporal upload path
    have hfttemp : ft = "temporal" := by
      by_contra hne
      exact hftok ⟨hne, hperm⟩
    simp only [if_neg hperm, if_pos hfttemp]
    split
    · rename_i e3 w3 t3 heqp
      have h3 := congrArg (fun p => p.2.1) heqp
      dsimp only at h3
      rw [provider_upload_world] at h3
      subst h3
      exact Or.inl hw1
    rename_i sm w3 t3 heqp
    have h3 := congrArg (fun p => p.2.1) heqp
    dsimp only at h3
    rw [provider_upload_world] at h3
    subst h3
    split
    · rename_i e4 w4 t4 heqc
      have h4 := create_metadata_error_world heqc
      subst h4
      exact Or.inl hw1
    rename_i metadata w4 t4 heqc
    obtain ⟨hm, hw4⟩ := create_metadata_ok_inv heqc
    subst hw4
    refine Or.inr ⟨metadata, ?_, ?_⟩
    · rw [hm]
      simp [wellClassed, MetadataDTO.sanitize, MetadataDTO.toMetadata]
    · dsimp only
      rw [← hm, hw1]

theorem get_expired_files_world (w : World) : (get_expired_files w).2.1 = w := by
  unfold get_expired_files
  by_cases h : w.metaQueryOk <;> simp [h]

theorem generate_token_metaStore (w : World) (uid : Option String) (ttl : Nat) :
    (generate_token w uid ttl).2.1.metaStore = w.metaStore := by
  unfold generate_token
  by_cases h : w.tokenStoreOk <;> simp [h]

theorem generate_upload_token_metaStore (w : World) (b : Option String) :
    (generate_upload_token w b).2.1.metaStore = w.metaStore := by
  unfold generate_upload_token
  split
  · split
    · split
      · rename_i e w1 t1 heqg
        have h1 := congrArg (fun p => p.2.1) heqg
        dsimp only at h1
        rw [get_user_world] at h1
        subst h1
        rfl
      · rename_i u w1 t1 heqg
        have h1 := congrArg (fun p => p.2.1) heqg
        dsimp only at h1
        rw [get_user_world] at h1
        subst h1
        split
        · rename_i e w2 t2 heqt
          have h2 := congrArg (fun p => p.2.1.metaStore) heqt
          dsimp only at h2
          rw [generate_token_metaStore] at h2
          exact h2.symm
        · rename_i tokv w2 t2 heqt
          have h2 := congrArg (fun p => p.2.1.metaStore) heqt
          dsimp only at h2
          rw [generate_token_metaStore] at h2
          exact h2.symm
    · rfl
  · split
    · rename_i e w2 t2 heqt
      have h2 := congrArg (fun p => p.2.1.metaStore) heqt
      dsimp only at h2
      rw [generate_token_metaStore] at h2
      exact h2.symm
    · rename_i tokv w2 t2 heqt
      have h2 := congrArg (fun p => p.2.1.metaStore) heqt
      dsimp only at h2
      rw [generate_token_metaStore] at h2
      exact h2.symm

theorem download_inv (w : World) (fid : String)
    (h : ∀ x ∈ w.metaStore, wellClassed x = true) :
    ∀ x ∈ (download_file w fid).2.1.metaStore, wellClassed x = true := by
  have hinc := increment_download_inv w fid h
  unfold download_file
  split
  · rename_i e w1 t1 heq
    rw [heq] at hinc
    exact hinc
  · rename_i md w1 t1 heq
    rw [heq] at hinc
    split
    · rename_i e2 w2 t2 heqd
      have h2 := congrArg (fun p => p.2.1) heqd
      dsimp only at h2
      rw [provider_download_world] at h2
      subst h2
      exact hinc
    · rename_i bts w2 t2 heqd
      have h2 := congrArg (fun p => p.2.1) heqd
      dsimp only at h2
      rw [provider_download_world] at h2
      subst h2
      exact hinc

theorem delete_file_inv (w : World) (fid : String)
    (h : ∀ x ∈ w.metaStore, wellClassed x = true) :
    ∀ x ∈ (delete_file w fid).2.1.metaStore, wellClassed x = true := by
  unfold delete_file
  split
  · rename_i e w1 t1 heq
    have h1 := congrArg (fun p => p.2.1) heq
    dsimp only at h1
    rw [get_metadata_world] at h1
    subst h1
    exact h
  rename_i md w1 t1 heq
  have h1 := congrArg (fun p => p.2.1) heq
  dsimp only at h1
  rw [get_metadata_world] at h1
  subst h1
  split
  · rename_i e2 w2 t2 heqp
    have h2 := congrArg (fun p => p.2.1) heqp
    dsimp only at h2
    rw [provider_delete_world] at h2
    subst h2
    exact h
  rename_i u2 w2 t2 heqp
  have h2 := congrArg (fun p => p.2.1) heqp
  dsimp only at h2
  rw [provider_delete_world] at h2
  subst h2
  split
  · rename_i e3 w3 t3 heqd
    intro x hx
    apply h
    apply delete_metadata_mem w fid
    rw [heqd]
    exact hx
  rename_i dm w3 t3 heqd
  have h3 : ∀ x ∈ w3.metaStore, wellClassed x = true := by
    intro x hx
    apply h
    apply delete_metadata_mem w fid
    rw [heqd]
    exact hx
  split
  · exact h3
  rename_i uidstr heqowner
  split
  · split
    · rename_i e4 w4 t4 heqg
      have h4 := congrArg (fun p => p.2.1) heqg
      dsimp only at h4
      rw [get_user_world] at h4
      subst h4
      exact h3
    · rename_i u4 w4 t4 heqg
      have h4 := congrArg (fun p => p.2.1) heqg
      dsimp only at h4
      rw [get_user_world] at h4
      subst h4
      dsimp only
      split
      · rename_i e5 w5 t5 heqU
        have h5 := congrArg (fun p => p.2.1.metaStore) heqU
        dsimp only at h5
        rw [update_user_metaStore] at h5
        intro x hx
        apply h3
        rw [h5]
        exact hx
      · rename_i r5 w5 t5 heqU
        have h5 := congrArg (fun p => p.2.1.metaStore) heqU
        dsimp only at h5
        rw [update_user_metaStore] at h5
        intro x hx
        apply h3
        rw [h5]
        exact hx
  · exact h3

theorem sweepOne_metaStore_sub (w : World) (fm : Metadata) {x : Metadata}
    (hx : x ∈ (sweepOne w fm).2.2.1.metaStore) : x ∈ w.metaStore := by
  unfold sweepOne at hx
  split at hx
  · rename_i e w1 t1 heqp
    have h1 := congrArg (fun p => p.2.1) heqp
    dsimp only at h1
    rw [provider_delete_world] at h1
    subst h1
    exact hx
  rename_i u1 w1 t1 heqp
  have h1 := congrArg (fun p => p.2.1) heqp
  dsimp only at h1
  rw [provider_delete_world] at h1
  subst h1
  split at hx
  · rename_i e2 w2 t2 heqd
    apply delete_metadata_mem w fm.file_id
    rw [heqd]
    exact hx
  rename_i dm w2 t2 heqd
  have hsub : ∀ y : Metadata, y ∈ w2.metaStore → y ∈ w.metaStore := by
    intro y hy
    apply delete_metadata_mem w fm.file_id
    rw [heqd]
    exact hy
  split at hx
  · exact hsub x hx
  rename_i uidstr heqowner
  split at hx
  · split at hx
    · rename_i e3 w3 t3 heqg
      have h3 := congrArg (fun p => p.2.1) heqg
      dsimp only at h3
      rw [get_user_world] at h3
      subst h3
      exact hsub x hx
    · rename_i u3 w3 t3 heqg
      have h3 := congrArg (fun p => p.2.1) heqg
      dsimp only at h3
      rw [get_user_world] at h3
      subst h3
      dsimp only at hx
      split at hx
      · rename_i e4 w4 t4 heqU
        have h4 := congrArg (fun p => p.2.1.metaStore) heqU
        dsimp only at h4
        rw [update_user_metaStore] at h4
        apply hsub
        rw [h4]
        exact hx
      · rename_i r4 w4 t4 heqU
        have h4 := congrArg (fun p => p.2.1.metaStore) heqU
        dsimp only at h4
        rw [update_user_metaStore] at h4
        apply hsub
        rw [h4]
        exact hx
  · exact hsub x hx

theorem sweepLoop_metaStore_sub (files : List Metadata) : ∀ (w : World) (x : Metadata),
    x ∈ (sweepLoop w files).2.2.1.metaStore → x ∈ w.metaStore := by
  induction files with
  | nil =>
    intro w x hx
    exact hx
  | cons fm rest ih =>
    intro w x hx
    unfold sweepLoop at hx
    split at hx
    rename_i c1 e1 w1 t1 heq1
    split at hx
    rename_i c2 e2 w2 t2 heq2
    have h1 := congrArg (fun p => p.2.2.1) heq1
    dsimp only at h1
    have h2 := congrArg (fun p => p.2.2.1) heq2
    dsimp only at h2
    apply sweepOne_metaStore_sub w fm
    rw [h1]
    apply ih w1 x
    rw [h2]
    exact hx

theorem cleanup_inv (w : World) (s : Option String)
    (h : ∀ x ∈ w.metaStore, wellClassed x = true) :
    ∀ x ∈ (cleanup_expired_files w s).2.1.metaStore, wellClassed x = true := by
  unfold cleanup_expired_files
  split
  · exact h
  rename_i sv
  split
  · exact h
  split
  · rename_i e w1 t1 heq
    have h1 := congrArg (fun p => p.2.1) heq
    dsimp only at h1
    rw [get_expired_files_world] at h1
    subst h1
    exact h
  rename_i files w1 t1 heq
  have h1 := congrArg (fun p => p.2.1) heq
  dsimp only at h1
  rw [get_expired_files_world] at h1
  subst h1
  split
  rename_i c2 e2 w2 t2 heq2
  intro x hx
  apply h
  have h2 := congrArg (fun p => p.2.2.1) heq2
  dsimp only at h2
  apply sweepLoop_metaStore_sub files w x
  rw [h2]
  exact hx

/-- C4 (amended): starting from any store in which every record is either
temporary-anonymous or permanent-owned, any sequence of operations that
avoids the metadata-update endpoint (upload creation, download, metadata
read, delete, sweep, token issuance) preserves that classification; the
metadata-update endpoint is excluded because it can attach delete_at to an
owned record. -/
theorem C4_class_invariant (ops : List Operation) : ∀ (w : World),
    (∀ op ∈ ops, op.isMetaUpdate = false) → MetaInv w →
    MetaInv (ops.foldl applyOp w) := by
  induction ops with
  | nil =>
    intro w _ hinv
    exact hinv
  | cons op rest ih =>
    intro w hops hinv
    simp only [List.foldl_cons]
    refine ih _ (fun o ho => hops o (List.mem_cons_of_mem _ ho)) ?_
    have hop := hops op (List.mem_cons_self _ _)
    simp only [MetaInv, List.all_eq_true] at hinv
    cases op with
    | opGenerateToken b =>
      simp only [applyOp, MetaInv, List.all_eq_true]
      rw [generate_upload_token_metaStore]
      exact hinv
    | opUpload req =>
      simp only [applyOp, MetaInv, List.all_eq_true]
      rcases upload_metaStore w req with hcase | ⟨m, hwc, hcase⟩
      · rw [hcase]
        exact hinv
      · rw [hcase]
        intro x hx
        rcases List.mem_cons.mp hx with h1 | h1
        · rw [h1]
          exact hwc
        · exact hinv x h1
    | opDownload fid =>
      simp only [applyOp, MetaInv, List.all_eq_true]
      exact download_inv w fid hinv
    | opGetMetadata fid =>
      simp only [applyOp, MetaInv, List.all_eq_true]
      unfold get_file_metadata
      rw [get_metadata_world]
      exact hinv
    | opUpdateMetadata fid b =>
      simp [Operation.isMetaUpdate] at hop
    | opDelete fid =>
      simp only [applyOp, MetaInv, List.all_eq_true]
      exact delete_file_inv w fid hinv
    | opCleanup s =>
      simp only [applyOp, MetaInv, List.all_eq_true]
      exact cleanup_inv w s hinv

/-- C4 counterexample: a store holding one permanent-owned file satisfies
the invariant, but one metadata-update call attaching delete_at breaks it:
the resulting record carries both an owner and an expiry. -/
theorem C4_counterexample :
    MetaInv wC4 ∧
    ¬ MetaInv (applyOp wC4 (Operation.opUpdateMetadata "f1"
        { description := none, file_name := none, delete_at := some 5000 })) ∧
    (update_file_metadata wC4 "f1"
        { description := none, file_name := none, delete_at := some 5000 }).2.1.metaStore =
      [{ mPerm with delete_at := some 5000 }] :=
  ⟨by decide, by decide, by decide⟩

theorem C4_witness :
    (∀ op ∈ [Operation.opDownload "f1", Operation.opCleanup (some "sec")],
      op.isMetaUpdate = false) ∧
    MetaInv wC4 ∧
    MetaInv ([Operation.opDownload "f1", Operation.opCleanup (some "sec")].foldl applyOp wC4) :=
  ⟨by decide, by decide,
   C4_class_invariant [Operation.opDownload "f1", Operation.opCleanup (some "sec")] wC4
     (by decide) (by decide)⟩

theorem provider_delete_trace (w : World) (fid : String) :
    (provider_delete w fid).2.2 = [Event.providerDelete fid] := by
  unfold provider_delete
  by_cases h : w.providerDeleteOk fid <;> simp [h]

theorem provider_delete_error_oracle {w : World} {fid : String} {e : ApplicationError}
    {w1 : World} {t1 : List Event}
    (h : provider_delete w fid = (.error e, w1, t1)) :
    w.providerDeleteOk fid = false ∧ w1 = w := by
  unfold provider_delete at h
  split at h
  · simp at h
  · rename_i hok
    simp only [Prod.mk.injEq] at h
    exact ⟨Bool.of_not_eq_true hok, h.2.1.symm⟩

theorem provider_delete_ok_oracle {w : World} {fid : String} {u : Unit}
    {w1 : World} {t1 : List Event}
    (h : provider_delete w fid = (.ok u, w1, t1)) :
    w.providerDeleteOk fid = true ∧ w1 = w := by
  unfold provider_delete at h
  split at h
  · rename_i hok
    simp only [Prod.mk.injEq] at h
    exact ⟨hok, h.2.1.symm⟩
  · simp at h

theorem delete_metadata_error_inv {w : World} {fid : String} {e : ApplicationError}
    {w2 : World} {t2 : List Event}
    (h : delete_metadata w fid = (.error e, w2, t2)) :
    (w.metaDeleteOk fid = false ∨ findMeta fid w.metaStore = none) ∧ w2 = w := by
  unfold delete_metadata at h
  split at h
  · rename_i hok
    split at h
    · simp at h
    · rename_i hfind
      simp only [Prod.mk.injEq] at h
      exact ⟨Or.inr hfind, h.2.1.symm⟩
  · rename_i hok
    simp only [Prod.mk.injEq] at h
    exact ⟨Or.inl (Bool.of_not_eq_true hok), h.2.1.symm⟩

theorem delete_metadata_ok_inv {w : World} {fid : String} {m : Metadata}
    {w2 : World} {t2 : List Event}
    (h : delete_metadata w fid = (.ok m, w2, t2)) :
    w.metaDeleteOk fid = true ∧ findMeta fid w.metaStore = some m ∧
    w2 = { w with metaStore := removeMeta fid w.metaStore } := by
  unfold delete_metadata at h
  split at h
  · rename_i hok
    split at h
    · rename_i m0 hfind
      simp only [Prod.mk.injEq, Except.ok.injEq] at h
      refine ⟨hok, ?_, h.2.1.symm⟩
      rw [hfind, h.1]
    · simp at h
  · simp at h

theorem update_user_frame (w : World) (dto : UserDTO) :
    (update_user w dto).2.1.providerDeleteOk = w.providerDeleteOk ∧
    (update_user w dto).2.1.metaDeleteOk = w.metaDeleteOk ∧
    (update_user w dto).2.1.metaStore = w.metaStore := by
  simp only [update_user]
  split
  · rw [get_user_world]
    exact ⟨rfl, rfl, rfl⟩
  · split
    · split
      · exact ⟨rfl, rfl, rfl⟩
      · exact ⟨rfl, rfl, rfl⟩
    · exact ⟨rfl, rfl, rfl⟩

theorem sweepOne_trace_head (w : World) (fm : Metadata) :
    Event.providerDelete fm.file_id ∈ (sweepOne w fm).2.2.2 := by
  unfold sweepOne
  split
  · rename_i e w1 t1 heqp
    have h1 := congrArg (fun p => p.2.2) heqp
    dsimp only at h1
    rw [provider_delete_trace] at h1
    rw [← h1]
    simp
  rename_i u1 w1 t1 heqp
  have h1 := congrArg (fun p => p.2.2) heqp
  dsimp only at h1
  rw [provider_delete_trace] at h1
  rw [← h1]
  split
  · simp
  split
  · simp
  split
  · split
    · simp
    · dsimp only
      split
      · simp
      · simp
  · simp

theorem sweepLoop_attempts (files : List Metadata) : ∀ (w : World) (fm : Metadata),
    fm ∈ files → Event.providerDelete fm.file_id ∈ (sweepLoop w files).2.2.2 := by
  induction files with
  | nil =>
    intro w fm h
    simp at h
  | cons f rest ih =>
    intro w fm h
    unfold sweepLoop
    split
    rename_i c1 e1 w1 t1 heq1
    split
    rename_i c2 e2 w2 t2 heq2
    rcases List.mem_cons.mp h with h1 | h1
    · subst h1
      apply List.mem_append_left
      have hh := sweepOne_trace_head w fm
      rw [heq1] at hh
      exact hh
    · apply List.mem_append_right
      have hh := ih w1 fm h1
      rw [heq2] at hh
      exact hh

theorem update_user_providerDeleteOk (w : World) (dto : UserDTO) :
    (update_user w dto).2.1.providerDeleteOk = w.providerDeleteOk := by
  simp only [update_user]
  split
  · rw [get_user_world]
  · split
    · split
      · rfl
      · rfl
    · rfl

theorem update_user_metaDeleteOk (w : World) (dto : UserDTO) :
    (update_user w dto).2.1.metaDeleteOk = w.metaDeleteOk := by
  simp only [update_user]
  split
  · rw [get_user_world]
  · split
    · split
      · rfl
      · rfl
    · rfl

theorem findMeta_isSome_of_mem {fm : Metadata} {l : List Metadata} (h : fm ∈ l) :
    (findMeta fm.file_id l).isSome = true := by
  induction l with
  | nil => simp at h
  | cons v rest ih =>
    simp only [findMeta]
    by_cases hv : v.file_id = fm.file_id
    · simp [hv]
    · rw [if_neg hv]
      rcases List.mem_cons.mp h with h1 | h1
      · rw [h1] at hv
        exact absurd rfl hv
      · exact ih h1

theorem findMeta_removeMeta_ne {fid1 fid2 : String} (hne : fid1 ≠ fid2)
    (l : List Metadata) :
    findMeta fid1 (removeMeta fid2 l) = findMeta fid1 l := by
  induction l with
  | nil => rfl
  | cons v rest ih =>
    by_cases h2 : v.file_id = fid2
    · have hv1 : ¬ (v.file_id = fid1) := by
        rw [h2]
        exact fun hc => hne hc.symm
      simp only [removeMeta, findMeta, if_pos h2, if_neg hv1]
      exact ih
    · simp only [removeMeta, findMeta, if_neg h2]
      by_cases h1 : v.file_id = fid1
      · simp [findMeta, h1]
      · simp only [findMeta, if_neg h1]
        exact ih

theorem sweepOne_count (w : World) (fm : Metadata) :
    (sweepOne w fm).1 =
      if (w.providerDeleteOk fm.file_id = true ∧ w.metaDeleteOk fm.file_id = true ∧
          (findMeta fm.file_id w.metaStore).isSome = true) then 1 else 0 := by
  unfold sweepOne
  split
  · rename_i e w1 t1 heqp
    obtain ⟨hp, -⟩ := provider_delete_error_oracle heqp
    rw [if_neg]
    intro hC
    rw [hp] at hC
    exact Bool.false_ne_true hC.1
  rename_i u1 w1 t1 heqp
  obtain ⟨hp, hw⟩ := provider_delete_ok_oracle heqp
  subst hw
  split
  · rename_i e2 w2 t2 heqd
    obtain ⟨hd, -⟩ := delete_metadata_error_inv heqd
    rw [if_neg]
    intro hC
    rcases hd with hd | hd
    · rw [hd] at hC
      exact Bool.false_ne_true hC.2.1
    · rw [hd] at hC
      simp at hC
  rename_i dm w2 t2 heqd
  obtain ⟨hd, hfind, hw2⟩ := delete_metadata_ok_inv heqd
  rw [if_pos ⟨hp, hd, by rw [hfind]; rfl⟩]
  split
  · rfl
  split
  · split
    · rfl
    · dsimp only
      split
      · rfl
      · rfl
  · rfl

theorem sweepOne_frame (w : World) (fm : Metadata) :
    ((sweepOne w fm).2.2.1.providerDeleteOk = w.providerDeleteOk ∧
     (sweepOne w fm).2.2.1.metaDeleteOk = w.metaDeleteOk) ∧
    ((sweepOne w fm).2.2.1.metaStore = w.metaStore ∨
     (sweepOne w fm).2.2.1.metaStore = removeMeta fm.file_id w.metaStore) := by
  unfold sweepOne
  split
  · rename_i e w1 t1 heqp
    obtain ⟨-, hw⟩ := provider_delete_error_oracle heqp
    subst hw
    exact ⟨⟨rfl, rfl⟩, Or.inl rfl⟩
  rename_i u1 w1 t1 heqp
  obtain ⟨-, hw⟩ := provider_delete_ok_oracle heqp
  subst hw
  split
  · rename_i e2 w2 t2 heqd
    obtain ⟨-, hw2⟩ := delete_metadata_error_inv heqd
    subst hw2
    exact ⟨⟨rfl, rfl⟩, Or.inl rfl⟩
  rename_i dm w2 t2 heqd
  obtain ⟨-, -, hw2⟩ := delete_metadata_ok_inv heqd
  subst hw2
  split
  · exact ⟨⟨rfl, rfl⟩, Or.inr rfl⟩
  rename_i uidstr heqo
  split
  · split
    · rename_i e3 w3 t3 heqg
      have h3 := congrArg (fun p => p.2.1) heqg
      dsimp only at h3
      rw [get_user_world] at h3
      subst h3
      exact ⟨⟨rfl, rfl⟩, Or.inr rfl⟩
    · rename_i u3 w3 t3 heqg
      have h3 := congrArg (fun p => p.2.1) heqg
      dsimp only at h3
      rw [get_user_world] at h3
      subst h3
      dsimp only
      split
      · rename_i e4 w4 t4 heqU
        have hA := congrArg (fun p => p.2.1.providerDeleteOk) heqU
        dsimp only at hA
        rw [update_user_providerDeleteOk] at hA
        have hB := congrArg (fun p => p.2.1.metaDeleteOk) heqU
        dsimp only at hB
        rw [update_user_metaDeleteOk] at hB
        have hC := congrArg (fun p => p.2.1.metaStore) heqU
        dsimp only at hC
        rw [update_user_metaStore] at hC
        exact ⟨⟨hA.symm, hB.symm⟩, Or.inr hC.symm⟩
      · rename_i r4 w4 t4 heqU
        have hA := congrArg (fun p => p.2.1.providerDeleteOk) heqU
        dsimp only at hA
        rw [update_user_providerDeleteOk] at hA
        have hB := congrArg (fun p => p.2.1.metaDeleteOk) heqU
        dsimp only at hB
        rw [update_user_metaDeleteOk] at hB
        have hC := congrArg (fun p => p.2.1.metaStore) heqU
        dsimp only at hC
        rw [update_user_metaStore] at hC
        exact ⟨⟨hA.symm, hB.symm⟩, Or.inr hC.symm⟩
  · exact ⟨⟨rfl, rfl⟩, Or.inr rfl⟩

theorem sweepLoop_count (files : List Metadata) : ∀ (w : World),
    (∀ fm ∈ files, (findMeta fm.file_id w.metaStore).isSome = true) →
    (files.map Metadata.file_id).Nodup →
    (sweepLoop w files).1 =
      (files.filter
        (fun fm => w.providerDeleteOk fm.file_id && w.metaDeleteOk fm.file_id)).length := by
  induction files with
  | nil =>
    intro w _ _
    rfl
  | cons fm rest ih =>
    intro w hpres hnodup
    unfold sweepLoop
    split
    rename_i c1 e1 w1 t1 heq1
    split
    rename_i c2 e2 w2 t2 heq2
    have hc1 := congrArg (fun p => p.1) heq1
    dsimp only at hc1
    rw [sweepOne_count] at hc1
    have hfr := sweepOne_frame w fm
    have hwe := congrArg (fun p => p.2.2.1) heq1
    dsimp only at hwe
    rw [hwe] at hfr
    have hpfm := hpres fm (List.mem_cons_self _ _)
    simp only [List.map_cons, List.nodup_cons] at hnodup
    obtain ⟨hnotin, hnodup2⟩ := hnodup
    have hpres2 : ∀ g ∈ rest, (findMeta g.file_id w1.metaStore).isSome = true := by
      intro g hg
      have hne : g.file_id ≠ fm.file_id := by
        intro hc
        exact hnotin (hc ▸ List.mem_map_of_mem Metadata.file_id hg)
      rcases hfr.2 with hcase | hcase
      · rw [hcase]
        exact hpres g (List.mem_cons_of_mem _ hg)
      · rw [hcase, findMeta_removeMeta_ne hne]
        exact hpres g (List.mem_cons_of_mem _ hg)
    have hc2 := congrArg (fun p => p.1) heq2
    dsimp only at hc2
    rw [ih w1 hpres2 hnodup2] at hc2
    rw [hfr.1.1, hfr.1.2] at hc2
    dsimp only
    rw [List.filter_cons]
    by_cases hp : (w.providerDeleteOk fm.file_id && w.metaDeleteOk fm.file_id) = true
    · rw [if_pos hp]
      have hC : (w.providerDeleteOk fm.file_id = true ∧ w.metaDeleteOk fm.file_id = true ∧
          (findMeta fm.file_id w.metaStore).isSome = true) := by
        simp only [Bool.and_eq_true] at hp
        exact ⟨hp.1, hp.2, hpfm⟩
      rw [if_pos hC] at hc1
      simp only [List.length_cons]
      omega
    · rw [if_neg hp]
      have hC : ¬ (w.providerDeleteOk fm.file_id = true ∧ w.metaDeleteOk fm.file_id = true ∧
          (findMeta fm.file_id w.metaStore).isSome = true) := by
        intro hC0
        exact hp (by rw [hC0.1, hC0.2.1]; rfl)
      rw [if_neg hC] at hc1
      omega

/-- C6 (amended): per-file sub-step behaviour of the sweep.  Provider
delete, metadata delete, and the quota update each append a descriptive
error on failure and never abort the loop; a failure to READ the owner
quota row (or an unparseable owner id) silently skips the decrement with
no error; the decrement itself is saturating (Nat subtraction).  The last
conjunct is the no-early-abort guarantee: under the correct secret the
sweep returns Ok and attempts the provider delete of every expired file. -/
theorem C6_sweep_substeps (w : World) (fm fm0 : Metadata) (uid : String) (u : User)
    (s : String) :
    (w.providerDeleteOk fm.file_id = false →
      sweepOne w fm = (0, ["Error deleting file " ++ fm.file_id ++ " from storage"], w,
        [Event.providerDelete fm.file_id])) ∧
    (w.providerDeleteOk fm.file_id = true → w.metaDeleteOk fm.file_id = false →
      sweepOne w fm = (0, ["Error deleting metadata for file " ++ fm.file_id], w,
        [Event.providerDelete fm.file_id, Event.metaDelete fm.file_id])) ∧
    (w.providerDeleteOk fm.file_id = true → w.metaDeleteOk fm.file_id = true →
      findMeta fm.file_id w.metaStore = some fm0 → fm.user_id = none →
      sweepOne w fm = (1, [], { w with metaStore := removeMeta fm.file_id w.metaStore },
        [Event.providerDelete fm.file_id, Event.metaDelete fm.file_id])) ∧
    (w.providerDeleteOk fm.file_id = true → w.metaDeleteOk fm.file_id = true →
      findMeta fm.file_id w.metaStore = some fm0 → fm.user_id = some uid →
      isUuidStr uid = true → findUser uid w.userStore = none →
      sweepOne w fm = (1, [], { w with metaStore := removeMeta fm.file_id w.metaStore },
        [Event.providerDelete fm.file_id, Event.metaDelete fm.file_id,
         Event.userGet uid])) ∧
    (w.providerDeleteOk fm.file_id = true → w.metaDeleteOk fm.file_id = true →
      findMeta fm.file_id w.metaStore = some fm0 → fm.user_id = some uid →
      isUuidStr uid = true → findUser uid w.userStore = some u →
      w.userUpdateOk uid = false →
      sweepOne w fm = (1, ["Error updating user quota for file " ++ fm.file_id],
        { w with metaStore := removeMeta fm.file_id w.metaStore },
        [Event.providerDelete fm.file_id, Event.metaDelete fm.file_id,
         Event.userGet uid, Event.userUpdate uid])) ∧
    (w.providerDeleteOk fm.file_id = true → w.metaDeleteOk fm.file_id = true →
      findMeta fm.file_id w.metaStore = some fm0 → fm.user_id = some uid →
      isUuidStr uid = true → findUser uid w.userStore = some u →
      w.userUpdateOk uid = true → u.file_count ≤ i64Max → u.used_space ≤ i64Max →
      sweepOne w fm = (1, [],
        { w with
          metaStore := removeMeta fm.file_id w.metaStore
          userStore := (replaceUser
            { u with file_count := u.file_count - 1, used_space := u.used_space - fm.size }
            w.userStore) },
        [Event.providerDelete fm.file_id, Event.metaDelete fm.file_id,
         Event.userGet uid, Event.userUpdate uid])) ∧
    (s = w.vk_secret → w.metaQueryOk = true →
      ∃ resp w2 tr, cleanup_expired_files w (some s) = (.ok resp, w2, tr) ∧
        ∀ fme ∈ w.metaStore.filter (isExpired w.now),
          Event.providerDelete fme.file_id ∈ tr) := by
  refine ⟨?_, ?_, ?_, ?_, ?_, ?_, ?_⟩
  · intro hp
    simp [sweepOne, provider_delete, hp]
  · intro hp hd
    simp [sweepOne, provider_delete, hp, delete_metadata, hd]
  · intro hp hd hfind howner
    simp [sweepOne, provider_delete, hp, delete_metadata, hd, hfind, howner]
  · intro hp hd hfind howner huuid hnouser
    simp [sweepOne, provider_delete, hp, delete_metadata, hd, hfind, howner, huuid,
          get_user, UserDTO.for_query, hnouser]
  · intro hp hd hfind howner huuid huser hupd
    simp [sweepOne, provider_delete, hp, delete_metadata, hd, hfind, howner, huuid,
          get_user, UserDTO.for_query, huser, update_user, UserDTO.sanitize,
          UserDTO.for_update, hupd]
  · intro hp hd hfind howner huuid huser hupd hfc hus
    have h1 : min (u.file_count - 1) i64Max = u.file_count - 1 :=
      Nat.min_eq_left (le_trans (Nat.sub_le _ _) hfc)
    have h2 : min (u.used_space - fm.size) i64Max = u.used_space - fm.size :=
      Nat.min_eq_left (le_trans (Nat.sub_le _ _) hus)
    simp [sweepOne, provider_delete, hp, delete_metadata, hd, hfind, howner, huuid,
          get_user, UserDTO.for_query, huser, update_user, UserDTO.sanitize,
          UserDTO.for_update, hupd, applyUserUpdate, h1, h2]
  · intro hsec hq
    rcases hsw : sweepLoop w (w.metaStore.filter (isExpired w.now)) with ⟨c, errs, w2, t2⟩
    refine ⟨{ deleted_count := c, errors := errs }, w2, [Event.metaGetExpired] ++ t2, ?_, ?_⟩
    · unfold cleanup_expired_files
      dsimp only
      rw [if_neg (show ¬ (s ≠ w.vk_secret) from fun h => h hsec)]
      unfold get_expired_files
      rw [if_pos hq]
      dsimp only
      rw [hsw]
    · intro fme hfme
      have hh := sweepLoop_attempts (w.metaStore.filter (isExpired w.now)) w fme hfme
      rw [hsw] at hh
      dsimp only at hh
      exact List.mem_append_right _ hh

/-- C6 counterexample: one expired owned file whose owner has no quota
row.  The sweep deletes the file from provider and metadata store, its
quota-read fails (trace ends at userGet with no userUpdate), the decrement
never happens — and the errors array stays empty, so a failing sub-step
appended no error. -/
theorem C6_counterexample :
    (cleanup_expired_files wC6 (some "sec")).1 =
      .ok { deleted_count := 1, errors := [] } ∧
    wC6.metaStore = [mExpOwned] ∧ mExpOwned.user_id = some uuidA ∧
    isExpired wC6.now mExpOwned = true ∧
    (cleanup_expired_files wC6 (some "sec")).2.2 =
      [Event.metaGetExpired, Event.providerDelete "f1", Event.metaDelete "f1",
       Event.userGet uuidA] ∧
    (cleanup_expired_files wC6 (some "sec")).2.1.userStore = [] :=
  ⟨by decide, rfl, rfl, by decide, by decide, by decide⟩

theorem C6_witness :
    wC7.providerDeleteOk "f1" = true ∧ wC7.metaDeleteOk "f1" = true ∧
    findMeta "f1" wC7.metaStore = some mExpOwned ∧
    mExpOwned.user_id = some uuidA ∧ isUuidStr uuidA = true ∧
    findUser uuidA wC7.userStore =
      some { uid := uuidA, file_count := 3, total_space := 100, used_space := 50 } ∧
    wC7.userUpdateOk uuidA = false ∧
    sweepOne wC7 mExpOwned =
      (1, ["Error updating user quota for file " ++ mExpOwned.file_id],
       { wC7 with metaStore := removeMeta mExpOwned.file_id wC7.metaStore },
       [Event.providerDelete mExpOwned.file_id, Event.metaDelete mExpOwned.file_id,
        Event.userGet uuidA, Event.userUpdate uuidA]) :=
  ⟨rfl, rfl, rfl, rfl, by decide, rfl, rfl,
   (C6_sweep_substeps wC7 mExpOwned mExpOwned uuidA
     { uid := uuidA, file_count := 3, total_space := 100, used_space := 50 }
     "sec").2.2.2.2.1 rfl rfl rfl rfl (by decide) rfl rfl⟩

/-- C7 (amended): deleted_count equals the number of expired files whose
provider delete AND metadata delete both succeed; the quota rollback
outcome does not affect the count. -/
theorem C7_deleted_count (w : World) (s : String)
    (hsec : s = w.vk_secret) (hq : w.metaQueryOk = true)
    (hnodup : (w.metaStore.map Metadata.file_id).Nodup) :
    ∃ errs w2 tr,
      cleanup_expired_files w (some s) =
        (.ok { deleted_count :=
                ((w.metaStore.filter (isExpired w.now)).filter
                  (fun fm =>
                    w.providerDeleteOk fm.file_id && w.metaDeleteOk fm.file_id)).length,
               errors := errs }, w2, tr) := by
  have hpres : ∀ fm ∈ w.metaStore.filter (isExpired w.now),
      (findMeta fm.file_id w.metaStore).isSome = true := by
    intro fm hfm
    exact findMeta_isSome_of_mem (List.mem_of_mem_filter hfm)
  have hnodup2 : ((w.metaStore.filter (isExpired w.now)).map Metadata.file_id).Nodup := by
    refine List.Nodup.sublist ?_ hnodup
    exact List.Sublist.map _ (List.filter_sublist _)
  have hcount := sweepLoop_count (w.metaStore.filter (isExpired w.now)) w hpres hnodup2
  rcases hsw : sweepLoop w (w.metaStore.filter (isExpired w.now)) with ⟨c, errs, w2, t2⟩
  rw [hsw] at hcount
  dsimp only at hcount
  refine ⟨errs, w2, [Event.metaGetExpired] ++ t2, ?_⟩
  unfold cleanup_expired_files
  dsimp only
  rw [if_neg (show ¬ (s ≠ w.vk_secret) from fun h => h hsec)]
  unfold get_expired_files
  rw [if_pos hq]
  dsimp only
  rw [hsw, hcount]

/-- C7 counterexample: one expired owned file whose quota update fails.
The claim says such a file is not counted, but deleted_count is 1 with the
quota error reported alongside. -/
theorem C7_counterexample :
    (cleanup_expired_files wC7 (some "sec")).1 =
      .ok { deleted_count := 1,
            errors := ["Error updating user quota for file f1"] } ∧
    mExpOwned.user_id = some uuidA ∧ isExpired wC7.now mExpOwned = true ∧
    (cleanup_expired_files wC7 (some "sec")).2.1.userStore = wC7.userStore :=
  ⟨by decide, rfl, by decide, by decide⟩

theorem C7_witness :
    "sec" = wC6.vk_secret ∧ wC6.metaQueryOk = true ∧
    (wC6.metaStore.map Metadata.file_id).Nodup ∧
    (∃ errs w2 tr,
      cleanup_expired_files wC6 (some "sec") =
        (.ok { deleted_count :=
                ((wC6.metaStore.filter (isExpired wC6.now)).filter
                  (fun fm =>
                    wC6.providerDeleteOk fm.file_id && wC6.metaDeleteOk fm.file_id)).length,
               errors := errs }, w2, tr)) :=
  ⟨rfl, rfl, by decide, C7_deleted_count wC6 "sec" rfl rfl (by decide)⟩

end VK
